import Mathlib

/-!
# Kleptic-tools: Traefik setup and Kong demo

A shallow embedding of `Traefik/setup.go` and `kong/main.go`.

* Go strings are modelled by `String`, whose operations are defined on the
  underlying list of characters; a Go string is taken to hold valid UTF-8.
* The operating system (environment, working directory, files, docker) is an
  explicit value `Ext`; every call the program makes to it is recorded in a
  trace together with the external state right after the call.
* `os.Exit` and a Go panic are explicit outcomes.
-/

set_option autoImplicit false

/-! ## Go library functions on strings -/

namespace GoLib

/-- White space as `unicode.IsSpace` defines it, the predicate `strings.TrimSpace` uses. -/
def isSpace (c : Char) : Bool :=
  let n := c.toNat
  n == 0x09 || n == 0x0A || n == 0x0B || n == 0x0C || n == 0x0D || n == 0x20 ||
  n == 0x85 || n == 0xA0 || n == 0x1680 || (0x2000 ≤ n && n ≤ 0x200A) ||
  n == 0x2028 || n == 0x2029 || n == 0x202F || n == 0x205F || n == 0x3000

/-- Drop the trailing characters that satisfy `p`. -/
def dropTrailing (p : Char → Bool) (l : List Char) : List Char :=
  ((l.reverse).dropWhile p).reverse

/-- The function `strings.TrimSpace` on character lists. -/
def trimSpaceL (l : List Char) : List Char :=
  dropTrailing isSpace (l.dropWhile isSpace)

/-- The function `strings.TrimSpace`. -/
def TrimSpace (s : String) : String := ⟨trimSpaceL s.data⟩

/-- Whether `p` is a prefix of `s`. -/
def hasPrefixL : List Char → List Char → Bool
  | [], _ => true
  | _ :: _, [] => false
  | a :: p, b :: s => a == b && hasPrefixL p s

/-- Whether `sub` occurs in `s` as a contiguous block. -/
def containsL (sub : List Char) : List Char → Bool
  | [] => hasPrefixL sub []
  | c :: s => hasPrefixL sub (c :: s) || containsL sub s

/-- The functions `strings.Contains` and `bytes.Contains`. -/
def Contains (s sub : String) : Bool := containsL sub.data s.data

/-- The function `strings.HasSuffix`. -/
def HasSuffix (s suffix : String) : Bool := hasPrefixL suffix.data.reverse s.data.reverse

/-- Replacement with an empty `old`: `new` goes before every character and at the end. -/
def intersperseNew (new : List Char) : List Char → List Char
  | [] => new
  | c :: s => new ++ c :: intersperseNew new s

/-- Replace the non-overlapping occurrences of a non-empty `old`, scanning from the left;
`fuel` bounds the number of scanning steps. -/
def replaceScan (old new : List Char) : Nat → List Char → List Char
  | 0, s => s
  | _ + 1, [] => []
  | fuel + 1, c :: s =>
    if hasPrefixL old (c :: s) then new ++ replaceScan old new fuel ((c :: s).drop old.length)
    else c :: replaceScan old new fuel s

/-- The function `strings.ReplaceAll` on character lists. -/
def replaceAllL (s old new : List Char) : List Char :=
  match old with
  | [] => intersperseNew new s
  | _ :: _ => replaceScan old new s.length s

/-- Split around runs of white space; `cur` holds the field being read, reversed. -/
def fieldsL : List Char → List Char → List (List Char)
  | [], cur => if cur.isEmpty then [] else [cur.reverse]
  | c :: s, cur =>
    if isSpace c then (if cur.isEmpty then fieldsL s [] else cur.reverse :: fieldsL s [])
    else fieldsL s (c :: cur)

/-- The function `strings.Fields`. -/
def Fields (s : String) : List String := (fieldsL s.data []).map String.mk

/-- The function `strings.ReplaceAll`. -/
def ReplaceAll (s old new : String) : String := ⟨replaceAllL s.data old.data new.data⟩

/-! ### Vocabulary for the properties -/

/-- The conditions under which replacing `old` by `new` leaves no `old` behind. -/
structure Apart (new old : List Char) : Prop where
  new_not_in_old : ¬ new <:+: old
  old_not_in_new : ¬ old <:+: new
  suffix_not_start : ∀ x y z : List Char, x ≠ [] → new = y ++ x → old = x ++ z → False
  start_not_suffix : ∀ x y z : List Char, x ≠ [] → new = x ++ y → old = z ++ x → False

/-- The executable form of `Apart`. -/
def apartB (new old : List Char) : Bool :=
  !containsL new old && !containsL old new &&
  (List.range new.length).all (fun k => !hasPrefixL (new.drop k) old) &&
  (List.range new.length).all (fun k => !hasPrefixL (new.take (k + 1)).reverse old.reverse)

end GoLib

/-! ## Traefik/setup.go -/

namespace Traefik

open GoLib

/-- The process environment: the value of each variable that is set. -/
abbrev Environ := String → Option String

/-- The function `os.Getenv`: the value of the variable, empty when it is not set. -/
def Getenv (env : Environ) (key : String) : String := (env key).getD ""

/-- The function `getenvDefault` of setup.go. -/
def getenvDefault (env : Environ) (key fallback : String) : String :=
  let val := TrimSpace (Getenv env key)
  if val == "" then fallback else val

/-- A variable is blank when it is unset or its value holds white space only. -/
def blank (env : Environ) (key : String) : Prop :=
  match env key with
  | none => True
  | some v => ∀ c ∈ v.data, isSpace c = true

/-! ### The operating system -/

/-- An entry of the file system: a regular file with its content and permission bits, or a
directory. -/
inductive Node where
  | file (content : String) (mode : Nat)
  | dir

/-- A call the program makes to the operating system. -/
inductive Call where
  | getwd
  | chdir (dir : String)
  | lookPath (name : String)
  | run (argv : List String)
  | stat (path : String)
  | readFile (path : String)
  | writeFile (path content : String) (perm : Nat)
  | chmod (path : String) (mode : Nat)
  deriving DecidableEq, Repr

/-- The state outside the program. Files are keyed by absolute path. -/
structure Ext where
  /-- The environment variables. -/
  env : Environ
  /-- The value of `runtime.GOOS`. -/
  goos : String
  /-- The working directory of the process. -/
  cwd : String
  /-- Whether `os.Getwd` fails. -/
  cwdLost : Bool
  /-- The file system. -/
  files : String → Option Node
  /-- The absolute paths that cannot be opened for writing. -/
  unwritable : String → Bool
  /-- The absolute paths at which a write breaks off after it has begun, with the number of
  characters that get through before it does. -/
  writeCut : String → Option Nat
  /-- The absolute paths at which a change of mode is refused. -/
  chmodDenied : String → Bool
  /-- The file mode creation mask of the process. -/
  umask : Nat
  /-- The executables `exec.LookPath` finds. -/
  onPath : String → Bool
  /-- Whether the docker daemon answers. -/
  daemonUp : Bool
  /-- Whether the docker command line has the compose plugin. -/
  composePlugin : Bool
  /-- Whether bringing the compose stack up succeeds. -/
  composeUpOk : Bool
  /-- The docker networks that exist. -/
  networks : List String

/-- The program state: the outside world, the calls made so far, each with the outside state
right after it, and the lines written to the two output streams. -/
structure World where
  ext : Ext
  trace : List (Call × Ext)
  stdout : List String
  stderr : List String

/-- How a computation ends: it returns, or the process exits with a code. -/
inductive Run (α : Type) where
  | ok (a : α) (w : World)
  | exit (code : Nat) (w : World)

/-- A computation of the program. -/
def M (α : Type) : Type := World → Run α

/-- Return a value. -/
def M.pure {α : Type} (a : α) : M α := fun w => Run.ok a w

/-- Sequence two computations; an exit ends the sequence. -/
def M.bind {α β : Type} (x : M α) (f : α → M β) : M β := fun w =>
  match x w with
  | Run.ok a w1 => f a w1
  | Run.exit c w1 => Run.exit c w1

instance : Monad M where
  pure := M.pure
  bind := M.bind

/-- The final state of a run. -/
def Run.world {α : Type} : Run α → World
  | Run.ok _ w => w
  | Run.exit _ w => w

/-- The exit code of a run that ended in `os.Exit`. -/
def Run.exitCode {α : Type} : Run α → Option Nat
  | Run.ok _ _ => none
  | Run.exit c _ => some c

/-- Record a call and the outside state it leaves. -/
def World.record (w : World) (c : Call) (e : Ext) : World :=
  { w with ext := e, trace := w.trace ++ [(c, e)] }

/-- The absolute path a relative path names in the working directory. -/
def Ext.resolve (e : Ext) (path : String) : String := e.cwd ++ "/" ++ path

/-- The file system with one entry set. -/
def setNode (files : String → Option Node) (key : String) (n : Node) : String → Option Node :=
  fun q => if q = key then some n else files q

/-- The outside state with the entry at a relative path set. -/
def Ext.setFile (e : Ext) (path : String) (n : Node) : Ext :=
  { e with files := setNode e.files (e.resolve path) n }

/-- The requested permission bits without those of the mask. -/
def maskedMode (perm umask : Nat) : Nat := perm &&& (0o777 ^^^ (umask &&& 0o777))

/-- The permission bits Go reports for a file on Windows, where only the owner-write bit of the
requested bits counts: 0666, or 0444 for a read-only file. -/
def windowsMode (perm : Nat) : Nat := if perm &&& 0o200 != 0 then 0o666 else 0o444

/-- The permission bits of a file created with the requested bits: on Windows those of
`windowsMode`, elsewhere the requested bits less the mask. -/
def createdMode (goos : String) (perm umask : Nat) : Nat :=
  if goos == "windows" then windowsMode perm else maskedMode perm umask

/-- The permission bits of a file after a change of mode that succeeds. -/
def chmodMode (goos : String) (mode : Nat) : Nat :=
  if goos == "windows" then windowsMode mode else mode

/-- The first `k` characters of a string. -/
def firstChars (k : Nat) (s : String) : String := ⟨s.data.take k⟩

/-- The function `os.Getwd`. -/
def osGetwd : M (Except String String) := fun w =>
  Run.ok (if w.ext.cwdLost then Except.error "getwd: no such file or directory"
    else Except.ok w.ext.cwd) (w.record Call.getwd w.ext)

/-- The function `os.Chdir`: it succeeds when the target is a directory. -/
def osChdir (dir : String) : M (Option String) := fun w =>
  match w.ext.files dir with
  | some Node.dir =>
    Run.ok none (w.record (Call.chdir dir) { w.ext with cwd := dir })
  | _ => Run.ok (some ("chdir " ++ dir ++ ": no such file or directory"))
      (w.record (Call.chdir dir) w.ext)

/-- The function `exec.LookPath`. -/
def lookPath (name : String) : M (Option String) := fun w =>
  Run.ok (if w.ext.onPath name then none else some "executable file not found in $PATH")
    (w.record (Call.lookPath name) w.ext)

/-- What running a command does to the outside state; `none` when the command fails. Docker
refuses to create a network whose name is taken, and a created network exists afterwards. -/
def commandEffect (e : Ext) : List String → Option Ext
  | ["docker", "network", "inspect", n] =>
    if e.onPath "docker" && e.daemonUp && e.networks.contains n then some e else none
  | ["docker", "network", "create", n] =>
    if e.onPath "docker" && e.daemonUp && !e.networks.contains n then
      some { e with networks := e.networks ++ [n] }
    else none
  | ["docker", "compose", "version"] =>
    if e.onPath "docker" && e.composePlugin then some e else none
  | ["docker", "compose", "up", "-d"] =>
    if e.onPath "docker" && e.composePlugin && e.daemonUp && e.composeUpOk then some e else none
  | ["docker-compose", "up", "-d"] =>
    if e.onPath "docker-compose" && e.daemonUp && e.composeUpOk then some e else none
  | _ => none

/-- The method `Run` of `exec.Cmd`: `none` when the command exits with status 0. -/
def cmdRun (argv : List String) : M (Option String) := fun w =>
  match commandEffect w.ext argv with
  | some e => Run.ok none (w.record (Call.run argv) e)
  | none => Run.ok (some "exit status 1") (w.record (Call.run argv) w.ext)

/-- The function `os.Stat`: whether the entry is a directory, or an error when there is
none. -/
def osStat (path : String) : M (Except String Bool) := fun w =>
  Run.ok
    (match w.ext.files (w.ext.resolve path) with
      | none => Except.error ("stat " ++ path ++ ": no such file or directory")
      | some Node.dir => Except.ok true
      | some (Node.file _ _) => Except.ok false)
    (w.record (Call.stat path) w.ext)

/-- The function `os.ReadFile`. -/
def osReadFile (path : String) : M (Except String String) := fun w =>
  Run.ok
    (match w.ext.files (w.ext.resolve path) with
      | some (Node.file content _) => Except.ok content
      | some Node.dir => Except.error ("read " ++ path ++ ": is a directory")
      | none => Except.error ("open " ++ path ++ ": no such file or directory"))
    (w.record (Call.readFile path) w.ext)

/-- The function `os.WriteFile`. Opening fails, with nothing touched, on a refused path or a
directory. Once the file is open it exists and is truncated: an existing file keeps its mode,
a new one gets the bits of `createdMode`. The write then goes through, or breaks off and
leaves the part written so far, which is an error. -/
def osWriteFile (path content : String) (perm : Nat) : M (Option String) := fun w =>
  let key := w.ext.resolve path
  if w.ext.unwritable key then
    Run.ok (some ("open " ++ path ++ ": permission denied"))
      (w.record (Call.writeFile path content perm) w.ext)
  else
    match w.ext.files key with
    | some Node.dir =>
      Run.ok (some ("open " ++ path ++ ": is a directory"))
        (w.record (Call.writeFile path content perm) w.ext)
    | some (Node.file _ mode) =>
      match w.ext.writeCut key with
      | some k =>
        Run.ok (some ("write " ++ path ++ ": no space left on device"))
          (w.record (Call.writeFile path content perm)
            (w.ext.setFile path (Node.file (firstChars k content) mode)))
      | none =>
        Run.ok none (w.record (Call.writeFile path content perm)
          (w.ext.setFile path (Node.file content mode)))
    | none =>
      match w.ext.writeCut key with
      | some k =>
        Run.ok (some ("write " ++ path ++ ": no space left on device"))
          (w.record (Call.writeFile path content perm)
            (w.ext.setFile path
              (Node.file (firstChars k content) (createdMode w.ext.goos perm w.ext.umask))))
      | none =>
        Run.ok none (w.record (Call.writeFile path content perm)
          (w.ext.setFile path (Node.file content (createdMode w.ext.goos perm w.ext.umask))))

/-- The function `os.Chmod`: an error, with nothing changed, when there is no entry or the
change is refused; otherwise a regular file gets the bits of `chmodMode`. -/
def osChmod (path : String) (mode : Nat) : M (Option String) := fun w =>
  let key := w.ext.resolve path
  match w.ext.files key with
  | none =>
    Run.ok (some ("chmod " ++ path ++ ": no such file or directory"))
      (w.record (Call.chmod path mode) w.ext)
  | some node =>
    if w.ext.chmodDenied key then
      Run.ok (some ("chmod " ++ path ++ ": operation not permitted"))
        (w.record (Call.chmod path mode) w.ext)
    else
      match node with
      | Node.file content _ =>
        Run.ok none (w.record (Call.chmod path mode)
          (w.ext.setFile path (Node.file content (chmodMode w.ext.goos mode))))
      | Node.dir => Run.ok none (w.record (Call.chmod path mode) w.ext)

/-- Write a line to standard output. -/
def printOut (line : String) : M Unit := fun w =>
  Run.ok () { w with stdout := w.stdout ++ [line] }

/-- Read the environment through `getenvDefault`. -/
def getenvDefaultM (key fallback : String) : M String := fun w =>
  Run.ok (getenvDefault w.ext.env key fallback) w

/-- The value of `runtime.GOOS`. -/
def runtimeGOOS : M String := fun w => Run.ok w.ext.goos w

/-! ### The functions of setup.go -/

/-- The function `exitErr`: a line on standard error, then `os.Exit(1)`. -/
def exitErr {α : Type} (msg : String) (err : Option String) : M α := fun w =>
  Run.exit 1
    { w with stderr := w.stderr ++ [match err with
        | some e => msg ++ ": " ++ e
        | none => msg] }

/-- The function `runCmd`. Indexing an empty list of fields is a Go panic, which ends the
process with exit code 2. -/
def runCmd (command : String) (args : List String) : M Unit := do
  match Fields command with
  | [] => fun w => Run.exit 2 w
  | name :: rest =>
    let err ← cmdRun (name :: (rest ++ args))
    match err with
    | some e => exitErr ("command failed: " ++ command ++ " " ++ " ".intercalate args) (some e)
    | none => pure ()

/-- The function `writeFile`. -/
def writeFile (path content : String) : M Unit := do
  let err ← osWriteFile path content 0o644
  match err with
  | some e => exitErr ("failed to write file: " ++ path) (some e)
  | none => pure ()

/-- The function `fileExists`. -/
def fileExists (path : String) : M Bool := do
  let r ← osStat path
  match r with
  | Except.error _ => pure false
  | Except.ok isDir => pure (!isDir)

/-- The function `ensureDocker`. -/
def ensureDocker : M Unit := do
  let err ← lookPath "docker"
  match err with
  | some e => exitErr "Docker is required but not installed" (some e)
  | none => pure ()

/-- The function `resolveCompose`. -/
def resolveCompose : M String := do
  let err ← lookPath "docker"
  let viaPlugin ← (match err with
    | none => do
      let err2 ← cmdRun ["docker", "compose", "version"]
      pure (err2.isNone)
    | some _ => pure false : M Bool)
  if viaPlugin then pure "docker compose"
  else do
    let err3 ← lookPath "docker-compose"
    match err3 with
    | none => pure "docker-compose"
    | some _ => exitErr "Docker Compose is required but not installed" none

/-- The function `ensureNetwork`. -/
def ensureNetwork (network : String) : M Unit := do
  let err ← cmdRun ["docker", "network", "inspect", network]
  match err with
  | none => pure ()
  | some _ => runCmd "docker" ["network", "create", network]

/-- The content `ensureTraefikConfig` generates. -/
def traefikTemplate (network : String) : String :=
  "api:\n  dashboard: true\n  insecure: true\n\nentryPoints:\n  web:\n    address: \":80\"\n" ++
  "  websecure:\n    address: \":443\"\n\nproviders:\n  docker:\n" ++
  "    endpoint: \"unix:///var/run/docker.sock\"\n    exposedByDefault: false\n    network: " ++
  network ++ "\n\nlog:\n  level: INFO\n\naccessLog: \x7b\x7d\n"

/-- The function `ensureTraefikConfig`. -/
def ensureTraefikConfig (network : String) : M Unit := do
  let ex ← fileExists "traefik.yml"
  if ex then pure ()
  else writeFile "traefik.yml" (traefikTemplate network)

/-- The content `ensureComposeConfig` generates. -/
def composeTemplate (version dashboardPort network : String) : String :=
  "version: \x273\x27\n\nservices:\n  traefik:\n    image: traefik:" ++ version ++
  "\n    container_name: traefik\n    restart: unless-stopped\n    ports:\n" ++
  "      - \"80:80\"\n      - \"443:443\"\n      - \"" ++ dashboardPort ++ ":8080\"\n" ++
  "    volumes:\n      - /var/run/docker.sock:/var/run/docker.sock:ro\n" ++
  "      - ./traefik.yml:/traefik.yml:ro\n      - ./acme.json:/acme.json\n" ++
  "    networks:\n      - " ++ network ++ "\n\nnetworks:\n  " ++ network ++
  ":\n    external: true\n"

/-- The function `ensureComposeConfig`. -/
def ensureComposeConfig (version dashboardPort network : String) : M Unit := do
  let ex ← fileExists "docker-compose.yml"
  if ex then pure ()
  else writeFile "docker-compose.yml" (composeTemplate version dashboardPort network)

/-- The function `ensureAcme`. -/
def ensureAcme : M Unit := do
  let ex ← fileExists "acme.json"
  if ex then pure ()
  else do
    writeFile "acme.json" ""
    let goos ← runtimeGOOS
    if goos != "windows" then
      let _ ← osChmod "acme.json" 0o600
      pure ()
    else pure ()

/-- The placeholder `injectAcmeEmail` looks for. -/
def placeholder : String := "your-email@example.com"

/-- The function `injectAcmeEmail`. -/
def injectAcmeEmail (email : String) : M Unit := do
  let r ← osReadFile "traefik.yml"
  match r with
  | Except.error _ => pure ()
  | Except.ok data =>
    if !Contains data placeholder then pure ()
    else writeFile "traefik.yml" (ReplaceAll data placeholder email)

/-- The body of `main` from the reading of the environment on. -/
def provision : M Unit := do
  let networkName ← getenvDefaultM "TRAEFIK_NETWORK" "traefik-network"
  let traefikVersion ← getenvDefaultM "TRAEFIK_VERSION" "v3.0"
  let dashboardPort ← getenvDefaultM "TRAEFIK_DASHBOARD_PORT" "8080"
  let acmeEmail ← getenvDefaultM "TRAEFIK_ACME_EMAIL" "your-email@example.com"
  ensureDocker
  let composeBin ← resolveCompose
  ensureNetwork networkName
  ensureTraefikConfig networkName
  ensureComposeConfig traefikVersion dashboardPort networkName
  ensureAcme
  injectAcmeEmail acmeEmail
  runCmd composeBin ["up", "-d"]
  printOut ("Traefik is running. Dashboard: http://localhost:" ++ dashboardPort)

/-- The first block of `main`: when the working directory does not end in `Traefik`, try to
move into its `Traefik` folder, and read the working directory again when that worked. -/
def enterTraefikDir (rootDir : String) : M Unit := do
  if HasSuffix rootDir "Traefik" == false then
    let err ← osChdir (rootDir ++ "/" ++ "Traefik")
    match err with
    | none => let _ ← osGetwd
    | some _ => pure ()

/-- The function `main` of setup.go: `enterTraefikDir`, then `provision`. -/
def main : M Unit := do
  let r ← osGetwd
  match r with
  | Except.error e => exitErr "failed to get working directory" (some e)
  | Except.ok rootDir =>
    enterTraefikDir rootDir
    provision

/-! ### Vocabulary for the properties -/

/-- A call that creates a resource: `docker network create` or a file write. -/
def Call.isCreate : Call → Bool
  | Call.run ["docker", "network", "create", _] => true
  | Call.writeFile _ _ _ => true
  | _ => false

/-- A call that changes the outside state. -/
def Call.isMutation : Call → Bool
  | Call.run ["docker", "network", "create", _] => true
  | Call.run ["docker", "compose", "up", "-d"] => true
  | Call.run ["docker-compose", "up", "-d"] => true
  | Call.writeFile _ _ _ => true
  | Call.chmod _ _ => true
  | _ => false

/-- A call `main` makes before the first ensure function: reading or changing the working
directory, looking an executable up, asking docker for its compose version. -/
def Call.isPreflight : Call → Bool
  | Call.getwd => true
  | Call.chdir _ => true
  | Call.lookPath _ => true
  | Call.run ["docker", "compose", "version"] => true
  | _ => false

/-- The calls made between two states of one run. -/
def callsSince (w0 w : World) : List Call := (w.trace.drop w0.trace.length).map Prod.fst

/-- The outside states recorded between two states of one run. -/
def statesSince (w0 w : World) : List Ext := (w.trace.drop w0.trace.length).map Prod.snd

/-- The permission bits of the file a relative path names, when it is a regular file. -/
def Ext.modeOf (e : Ext) (path : String) : Option Nat :=
  match e.files (e.resolve path) with
  | some (Node.file _ mode) => some mode
  | _ => none

/-- The content of the file a relative path names, when it is a regular file. -/
def Ext.contentOf (e : Ext) (path : String) : Option String :=
  match e.files (e.resolve path) with
  | some (Node.file content _) => some content
  | _ => none

/-- Whether permission bits let the group or others read. -/
def groupOrOtherRead (mode : Nat) : Bool := mode &&& 0o044 != 0

/-- An outside state with no file, no network and nothing installed, on the given platform. -/
def emptyExt (goos : String) : Ext :=
  { env := fun _ => none, goos := goos, cwd := "/srv/Traefik", cwdLost := false,
    files := fun _ => none, unwritable := fun _ => false, writeCut := fun _ => none,
    chmodDenied := fun _ => false, umask := 0o022,
    onPath := fun _ => false, daemonUp := false, composePlugin := false,
    composeUpOk := false, networks := [] }

/-- A Linux host with docker, its compose plugin and a running daemon, and no resource yet. -/
def freshExt : Ext :=
  { env := fun _ => none, goos := "linux", cwd := "/srv/Traefik", cwdLost := false,
    files := fun _ => none, unwritable := fun _ => false, writeCut := fun _ => none,
    chmodDenied := fun _ => false, umask := 0o022,
    onPath := fun n => n == "docker", daemonUp := true, composePlugin := true,
    composeUpOk := true, networks := [] }

/-- Whether an address and the placeholder are apart: neither occurs in the other, no end of the
address starts the placeholder and no start of the address ends it. -/
def overlapFree (email : String) : Bool := apartB email.data placeholder.data

/-- The start of a run in the given outside state. -/
def start (e : Ext) : World := { ext := e, trace := [], stdout := [], stderr := [] }

/-- The state `ensureNetwork "net1"` leaves when started in `freshExt`. -/
def net1Created : World :=
  ((start freshExt).record (Call.run ["docker", "network", "inspect", "net1"]) freshExt).record
    (Call.run ["docker", "network", "create", "net1"])
    { freshExt with networks := ["net1"] }

/-- The outside state `freshExt` with a `traefik.yml` of the given content. -/
def withTraefikYml (content : String) : Ext :=
  freshExt.setFile "traefik.yml" (Node.file content 0o644)

/-- The start of a run on a host whose `traefik.yml` holds the placeholder. -/
def placeholderYml : World := start (withTraefikYml "email: your-email@example.com\n")

/-- Every outside state recorded between two states keeps the file, once it is there, unreadable
for the group and for others. -/
def ownerOnlySince (path : String) (w0 w : World) : Prop :=
  ∀ e ∈ statesSince w0 w, ∀ mode, e.modeOf path = some mode → groupOrOtherRead mode = false

end Traefik

/-! ## kong/main.go -/

namespace Kong

/-- The constant `kongAdminURL`. -/
def kongAdminURL : String := "http://localhost:8001"

/-- The constant `kongProxyURL`. -/
def kongProxyURL : String := "http://localhost:8000"

/-- A decoded JSON value, as `encoding/json` stores it in an `interface{}`; a number keeps its
literal. -/
inductive JValue where
  | null
  | bool (b : Bool)
  | number (literal : String)
  | str (s : String)
  | array (items : List JValue)
  | object (fields : List (String × JValue))

/-- The struct `Service`. -/
structure Service where
  Name : String
  URL : String
  Protocol : String := ""
  Host : String := ""
  Port : Int := 0
  Path : String := ""

/-- The struct `Route`. -/
structure Route where
  Name : String
  Paths : List String
  Methods : List String := []
  Protocols : List String := []

/-- The struct `Plugin`. -/
structure Plugin where
  Name : String
  Config : List (String × JValue) := []
  Enabled : Bool

/-- The value a POST carries; `json.Marshal` does not fail on these three structs. -/
inductive Payload where
  | service (s : Service)
  | route (r : Route)
  | plugin (p : Plugin)

/-- An HTTP request the program sends. -/
inductive Request where
  | get (url : String)
  | post (url contentType : String) (payload : Payload)

/-- An HTTP response: its status code, its body, what `encoding/json` reads from the body (an
error when the body is not JSON), and its headers (empty when a header is missing). -/
structure Response where
  statusCode : Nat
  body : String
  json : Except String JValue
  header : String → String

/-- An argument of a formatted print. -/
inductive Arg where
  | text (s : String)
  | num (n : Nat)
  | value (v : Option JValue)

/-- What the program does that can be observed, in order. -/
inductive Event where
  | println (text : String)
  | printf (format : String) (args : List Arg)
  | logPrintf (format : String) (args : List Arg)
  | sleep (milliseconds : Nat)
  | request (r : Request)

/-- The program state: the answer of the gateway to the n-th request, the requests sent and
the events so far. -/
structure State where
  answer : Nat → Request → Except String Response
  sent : List Request
  events : List Event

/-- How a computation ends: it returns, `log.Fatalf` exits the process, or a Go panic aborts
it. -/
inductive Run (α : Type) where
  | ok (a : α) (s : State)
  | fatal (s : State)
  | panic (msg : String) (s : State)

/-- A computation of the program. -/
def K (α : Type) : Type := State → Run α

/-- Return a value. -/
def K.pure {α : Type} (a : α) : K α := fun s => Run.ok a s

/-- Sequence two computations; an exit or a panic ends the sequence. -/
def K.bind {α β : Type} (x : K α) (f : α → K β) : K β := fun s =>
  match x s with
  | Run.ok a s1 => f a s1
  | Run.fatal s1 => Run.fatal s1
  | Run.panic m s1 => Run.panic m s1

instance : Monad K where
  pure := K.pure
  bind := K.bind

/-- The final state of a run. -/
def Run.state {α : Type} : Run α → State
  | Run.ok _ s => s
  | Run.fatal s => s
  | Run.panic _ s => s

/-- Whether a run ended in a panic. -/
def Run.panicked {α : Type} : Run α → Bool
  | Run.panic _ _ => true
  | _ => false

/-- Whether a run returned. -/
def Run.returned {α : Type} : Run α → Bool
  | Run.ok _ _ => true
  | _ => false

/-- Record an event. -/
def emit (e : Event) : K Unit := fun s => Run.ok () { s with events := s.events ++ [e] }

/-- The function `fmt.Println`. -/
def println (text : String) : K Unit := emit (Event.println text)

/-- The function `fmt.Printf`. -/
def printf (format : String) (args : List Arg) : K Unit := emit (Event.printf format args)

/-- The function `log.Printf`. -/
def logPrintf (format : String) (args : List Arg) : K Unit := emit (Event.logPrintf format args)

/-- The function `log.Fatalf`: the message, then `os.Exit(1)`. -/
def logFatalf {α : Type} (format : String) (args : List Arg) : K α := fun s =>
  Run.fatal { s with events := s.events ++ [Event.logPrintf format args] }

/-- A Go panic. -/
def goPanic {α : Type} (msg : String) : K α := fun s => Run.panic msg s

/-- The function `time.Sleep`. -/
def sleep (milliseconds : Nat) : K Unit := emit (Event.sleep milliseconds)

/-- Send a request: the gateway answers the n-th request of the run. -/
def send (r : Request) : K (Except String Response) := fun s =>
  Run.ok (s.answer s.sent.length r)
    { s with sent := s.sent ++ [r], events := s.events ++ [Event.request r] }

/-- The function `http.Get`. -/
def httpGet (url : String) : K (Except String Response) := send (Request.get url)

/-- The function `http.Post`. -/
def httpPost (url contentType : String) (payload : Payload) : K (Except String Response) :=
  send (Request.post url contentType payload)

/-- Decode a body into a `map[string]interface{}`: an error when the body is not JSON or its
value is neither an object nor `null`; `null` leaves the map nil, which has no entry. -/
def decodeMap (resp : Response) : Except String (List (String × JValue)) :=
  match resp.json with
  | Except.error e => Except.error e
  | Except.ok (JValue.object fields) => Except.ok fields
  | Except.ok JValue.null => Except.ok []
  | Except.ok (JValue.bool _) =>
    Except.error "json: cannot unmarshal bool into Go value of type map[string]interface \x7b\x7d"
  | Except.ok (JValue.number _) =>
    Except.error "json: cannot unmarshal number into Go value of type map[string]interface \x7b\x7d"
  | Except.ok (JValue.str _) =>
    Except.error "json: cannot unmarshal string into Go value of type map[string]interface \x7b\x7d"
  | Except.ok (JValue.array _) =>
    Except.error "json: cannot unmarshal array into Go value of type map[string]interface \x7b\x7d"

/-- The type assertion `v.(string)`. -/
def assertString (v : Option JValue) : K String :=
  match v with
  | some (JValue.str s) => pure s
  | _ => goPanic "interface conversion: interface is not string"

/-- The type assertion `v.([]interface{})`. -/
def assertArray (v : Option JValue) : K (List JValue) :=
  match v with
  | some (JValue.array items) => pure items
  | _ => goPanic "interface conversion: interface is not []interface"

/-- The type assertion `v.(map[string]interface{})`. -/
def assertObject (v : JValue) : K (List (String × JValue)) :=
  match v with
  | JValue.object fields => pure fields
  | _ => goPanic "interface conversion: interface is not map[string]interface"

/-- The constant `http.StatusOK`. -/
def StatusOK : Nat := 200

/-- The constant `http.StatusCreated`. -/
def StatusCreated : Nat := 201

/-- The constant `http.StatusConflict`. -/
def StatusConflict : Nat := 409

/-- The constant `http.StatusTooManyRequests`. -/
def StatusTooManyRequests : Nat := 429

/-- The function `checkKongStatus`. -/
def checkKongStatus : K (Option String) := do
  let r ← httpGet (kongAdminURL ++ "/status")
  match r with
  | Except.error err => pure (some err)
  | Except.ok resp =>
    if resp.statusCode != StatusOK then
      pure (some ("Kong returned status: " ++ Nat.repr resp.statusCode))
    else
      match decodeMap resp with
      | Except.error err => pure (some err)
      | Except.ok status => do
        printf "   Database: %v\n" [Arg.value (status.lookup "database")]
        printf "   Server: %v\n" [Arg.value (status.lookup "server")]
        pure none

/-- The common body of the three create functions after the POST: check the status, decode the
body, return the `id` entry as a string. -/
def createResult (failure : String) (r : Except String Response) : K (Except String String) :=
  match r with
  | Except.error err => pure (Except.error err)
  | Except.ok resp =>
    if resp.statusCode != StatusCreated && resp.statusCode != StatusConflict then
      pure (Except.error (failure ++ ": " ++ resp.body ++ " (status: " ++
        Nat.repr resp.statusCode ++ ")"))
    else
      match decodeMap resp with
      | Except.error err => pure (Except.error err)
      | Except.ok result => do
        let id ← assertString (result.lookup "id")
        pure (Except.ok id)

/-- The function `createService`. -/
def createService (service : Service) : K (Except String String) := do
  let r ← httpPost (kongAdminURL ++ "/services") "application/json" (Payload.service service)
  createResult "failed to create service" r

/-- The function `createRoute`. -/
def createRoute (serviceName : String) (route : Route) : K (Except String String) := do
  let url := kongAdminURL ++ "/services/" ++ serviceName ++ "/routes"
  let r ← httpPost url "application/json" (Payload.route route)
  createResult "failed to create route" r

/-- The function `testProxyRequest`. -/
def testProxyRequest : K (Option String) := do
  let r ← httpGet (kongProxyURL ++ "/httpbin/get")
  match r with
  | Except.error err => pure (some err)
  | Except.ok resp =>
    if resp.statusCode != StatusOK then
      pure (some ("proxy request failed with status: " ++ Nat.repr resp.statusCode))
    else do
      printf "   Response status: %d\n" [Arg.num resp.statusCode]
      printf "   Response preview: %.100s...\n" [Arg.text resp.body]
      pure none

/-- The function `addPlugin`. -/
def addPlugin (serviceName : String) (plugin : Plugin) : K (Except String String) := do
  let url := kongAdminURL ++ "/services/" ++ serviceName ++ "/plugins"
  let r ← httpPost url "application/json" (Payload.plugin plugin)
  createResult "failed to add plugin" r

/-- The loop of `listServices` over the decoded services, numbered from `i + 1`. -/
def printServices : Nat → List JValue → K Unit
  | _, [] => pure ()
  | i, svc :: rest => do
    let service ← assertObject svc
    printf "   %d. Name: %s, Host: %s\n"
      [Arg.num (i + 1), Arg.value (service.lookup "name"), Arg.value (service.lookup "host")]
    printServices (i + 1) rest

/-- The function `listServices`. -/
def listServices : K (Option String) := do
  let r ← httpGet (kongAdminURL ++ "/services")
  match r with
  | Except.error err => pure (some err)
  | Except.ok resp =>
    match decodeMap resp with
    | Except.error err => pure (some err)
    | Except.ok result => do
      let services ← assertArray (result.lookup "data")
      printf "   Total services: %d\n" [Arg.num services.length]
      printServices 0 services
      pure none

/-- One round of the loop of `testRateLimiting`. -/
def probe (i : Nat) : K Unit := do
  let r ← httpGet (kongProxyURL ++ "/httpbin/get")
  match r with
  | Except.error err => logPrintf "   Request %d failed: %v\n" [Arg.num i, Arg.text err]
  | Except.ok resp => do
    printf "   Request %d: Status %d" [Arg.num i, Arg.num resp.statusCode]
    let remaining := resp.header "X-RateLimit-Remaining-Minute"
    if remaining != "" then printf " | Remaining: %s" [Arg.text remaining] else pure ()
    if resp.statusCode == StatusTooManyRequests then printf " ⛔ Rate limit exceeded!" []
    else printf " ✅" []
    println ""
    sleep 500

/-- The rounds `i`, `i + 1`, ... of the loop of `testRateLimiting`, `n` of them. -/
def probes : Nat → Nat → K Unit
  | 0, _ => pure ()
  | n + 1, i => do
    probe i
    probes n (i + 1)

/-- The function `testRateLimiting`. -/
def testRateLimiting : K Unit := probes 6 1

/-- The function `main` of kong/main.go. -/
def main : K Unit := do
  println "🚀 Kong Gateway Demo - Basic Functionality"
  println "==========================================\n"
  println "📊 Step 1: Checking Kong Gateway status..."
  let err ← checkKongStatus
  match err with
  | some e => logFatalf "Kong Gateway is not running: %v\n" [Arg.text e]
  | none =>
    println "✅ Kong Gateway is running!\n"
    println "🔧 Step 2: Creating a service..."
    let service : Service := { Name := "example-service", URL := "http://httpbin.org" }
    let created ← createService service
    match created with
    | Except.error e => logPrintf "⚠️  Warning: Could not create service: %v\n" [Arg.text e]
    | Except.ok serviceID => printf "✅ Service created with ID: %s\n\n" [Arg.text serviceID]
    println "🛣️  Step 3: Creating a route for the service..."
    let route : Route :=
      { Name := "example-route", Paths := ["/httpbin"], Methods := ["GET", "POST"] }
    let routed ← createRoute "example-service" route
    match routed with
    | Except.error e => logPrintf "⚠️  Warning: Could not create route: %v\n" [Arg.text e]
    | Except.ok routeID => printf "✅ Route created with ID: %s\n\n" [Arg.text routeID]
    println "🌐 Step 4: Testing the route through Kong Gateway..."
    sleep 1000
    let proxied ← testProxyRequest
    match proxied with
    | some e => logPrintf "⚠️  Warning: Could not test proxy request: %v\n" [Arg.text e]
    | none => println "✅ Successfully made request through Kong Gateway!\n"
    println "🔌 Step 5: Adding rate limiting plugin..."
    let plugin : Plugin :=
      { Name := "rate-limiting",
        Config := [("minute", JValue.number "5"), ("policy", JValue.str "local")],
        Enabled := true }
    let added ← addPlugin "example-service" plugin
    match added with
    | Except.error e => logPrintf "⚠️  Warning: Could not add plugin: %v\n" [Arg.text e]
    | Except.ok pluginID =>
      printf "✅ Rate limiting plugin added with ID: %s\n\n" [Arg.text pluginID]
    println "📋 Step 6: Listing all services..."
    let listed ← listServices
    match listed with
    | some e => logPrintf "⚠️  Warning: Could not list services: %v\n" [Arg.text e]
    | none => pure ()
    println "\n🧪 Step 7: Testing rate limiting (making 6 requests)..."
    testRateLimiting
    println "\n🎉 Demo completed successfully!"
    println "====================================="
    println "\n💡 Next steps:"
    println "   - Visit http://localhost:8001 for Kong Admin API"
    println "   - Visit http://localhost:8000/httpbin/get for proxied requests"
    println "   - Explore more plugins and configurations"

/-! ### Vocabulary for the properties -/

/-- The start of a run against a gateway that answers as given. -/
def boot (answer : Nat → Request → Except String Response) : State :=
  { answer := answer, sent := [], events := [] }

/-- A response without headers whose body is the given JSON value. -/
def jsonResponse (statusCode : Nat) (body : String) (value : JValue) : Response :=
  { statusCode := statusCode, body := body, json := Except.ok value, header := fun _ => "" }

/-- The answer of Kong to a create call for a name that is taken: status 409 and a body that
describes the violation and carries no `id`. -/
def conflictResponse : Response :=
  jsonResponse 409 "\x7b\"code\":5,\"name\":\"unique constraint violation\"\x7d"
    (JValue.object [("code", JValue.number "5"),
      ("name", JValue.str "unique constraint violation")])

/-- The answer of Kong to the status request. -/
def statusResponse : Response :=
  jsonResponse 200 "\x7b\"database\":\x7b\"reachable\":true\x7d\x7d"
    (JValue.object [("database", JValue.object [("reachable", JValue.bool true)])])

/-- The answer of Kong to a create call that creates the entity. -/
def createdResponse : Response :=
  jsonResponse 201 "\x7b\"id\":\"svc-1\"\x7d" (JValue.object [("id", JValue.str "svc-1")])

/-- An error answer of Kong: a JSON object with a message and no `data`. -/
def errorResponse : Response :=
  jsonResponse 500 "\x7b\"message\":\"An unexpected error occurred\"\x7d"
    (JValue.object [("message", JValue.str "An unexpected error occurred")])

/-- A gateway on which the service of the demo already exists: the status request succeeds and
every later request is answered with the conflict. -/
def conflictGateway : Nat → Request → Except String Response
  | 0, _ => Except.ok statusResponse
  | _ + 1, _ => Except.ok conflictResponse

/-- A gateway that creates what it is asked to and answers every GET after the status request
with an error object. -/
def brokenListGateway : Nat → Request → Except String Response
  | 0, _ => Except.ok statusResponse
  | _ + 1, Request.post _ _ _ => Except.ok createdResponse
  | _ + 1, Request.get _ => Except.ok errorResponse

/-- The POST that `createService` sends. -/
def servicePost (service : Service) : Request :=
  Request.post (kongAdminURL ++ "/services") "application/json" (Payload.service service)

/-- The POST that `createRoute` sends. -/
def routePost (serviceName : String) (route : Route) : Request :=
  Request.post (kongAdminURL ++ "/services/" ++ serviceName ++ "/routes") "application/json"
    (Payload.route route)

/-- The POST that `addPlugin` sends. -/
def pluginPost (serviceName : String) (plugin : Plugin) : Request :=
  Request.post (kongAdminURL ++ "/services/" ++ serviceName ++ "/plugins") "application/json"
    (Payload.plugin plugin)

/-- The service `main` creates. -/
def exampleService : Service := { Name := "example-service", URL := "http://httpbin.org" }

/-- The route `main` creates. -/
def exampleRoute : Route :=
  { Name := "example-route", Paths := ["/httpbin"], Methods := ["GET", "POST"] }

/-- The plugin `main` adds. -/
def examplePlugin : Plugin :=
  { Name := "rate-limiting",
    Config := [("minute", JValue.number "5"), ("policy", JValue.str "local")],
    Enabled := true }

/-- The urls of the requests sent, in order, each with its method. -/
def sentUrls (s : State) : List (String × String) :=
  s.sent.map (fun r => match r with
    | Request.get url => ("GET", url)
    | Request.post url _ _ => ("POST", url))

end Kong

/-! # Theorems -/

namespace GoLib

theorem dropWhile_eq_nil_iff_all (p : Char → Bool) (l : List Char) :
    l.dropWhile p = [] ↔ ∀ c ∈ l, p c = true := by
  induction l with
  | nil => simp
  | cons a t ih =>
    by_cases h : p a = true
    · simp [List.dropWhile_cons, h, ih]
    · simp [List.dropWhile_cons, h]

theorem dropWhile_head_not (p : Char → Bool) (l : List Char) :
    ∀ c, (l.dropWhile p).head? = some c → p c = false := by
  induction l with
  | nil => simp
  | cons a t ih =>
    intro c
    by_cases h : p a = true
    · simpa [List.dropWhile_cons, h] using ih c
    · simp only [List.dropWhile_cons, h]
      simp only [Bool.false_eq_true, ↓reduceIte, List.head?_cons, Option.some.injEq]
      rintro rfl
      simpa using h

theorem dropWhile_split (p : Char → Bool) (l : List Char) :
    ∃ pre, l = pre ++ l.dropWhile p ∧ ∀ c ∈ pre, p c = true :=
  ⟨l.takeWhile p, (List.takeWhile_append_dropWhile p l).symm,
    fun _ hc => List.mem_takeWhile_imp hc⟩

theorem dropTrailing_split (p : Char → Bool) (l : List Char) :
    ∃ post, l = dropTrailing p l ++ post ∧ ∀ c ∈ post, p c = true := by
  obtain ⟨pre, h1, h2⟩ := dropWhile_split p l.reverse
  refine ⟨pre.reverse, ?_, fun c hc => h2 c (List.mem_reverse.mp hc)⟩
  have := congrArg List.reverse h1
  simpa [dropTrailing] using this

theorem dropTrailing_eq_nil_iff (p : Char → Bool) (l : List Char) :
    dropTrailing p l = [] ↔ ∀ c ∈ l, p c = true := by
  simp [dropTrailing, dropWhile_eq_nil_iff_all]

theorem dropTrailing_getLast_not (p : Char → Bool) (l : List Char) :
    ∀ c, (dropTrailing p l).getLast? = some c → p c = false := by
  intro c h
  apply dropWhile_head_not p l.reverse c
  simpa [dropTrailing, List.getLast?_reverse] using h

theorem dropTrailing_head (p : Char → Bool) (l : List Char) (h : dropTrailing p l ≠ []) :
    (dropTrailing p l).head? = l.head? := by
  obtain ⟨post, h1, -⟩ := dropTrailing_split p l
  conv_rhs => rw [h1]
  cases hd : dropTrailing p l with
  | nil => exact absurd hd h
  | cons a t => simp

theorem trimSpaceL_eq_nil_iff (l : List Char) :
    trimSpaceL l = [] ↔ ∀ c ∈ l, isSpace c = true := by
  unfold trimSpaceL
  rw [dropTrailing_eq_nil_iff]
  constructor
  · intro h
    obtain ⟨pre, h1, h2⟩ := dropWhile_split isSpace l
    intro c hc
    rw [h1] at hc
    rcases List.mem_append.mp hc with hc | hc
    · exact h2 c hc
    · exact h c hc
  · intro h c hc
    exact h c ((List.dropWhile_sublist _).subset hc)

/-- Trimming removes a white-space prefix and a white-space suffix, and what is left neither
starts nor ends with white space. -/
theorem trimSpaceL_split (l : List Char) :
    ∃ pre post, l = pre ++ trimSpaceL l ++ post ∧ (∀ c ∈ pre, isSpace c = true) ∧
      (∀ c ∈ post, isSpace c = true) ∧
      (∀ c, (trimSpaceL l).head? = some c → isSpace c = false) ∧
      (∀ c, (trimSpaceL l).getLast? = some c → isSpace c = false) := by
  obtain ⟨pre, h1, h2⟩ := dropWhile_split isSpace l
  obtain ⟨post, h3, h4⟩ := dropTrailing_split isSpace (l.dropWhile isSpace)
  refine ⟨pre, post, ?_, h2, h4, ?_, ?_⟩
  · unfold trimSpaceL
    rw [List.append_assoc, ← h3, ← h1]
  · intro c hc
    by_cases hn : trimSpaceL l = []
    · simp [hn] at hc
    · unfold trimSpaceL at hc hn
      rw [dropTrailing_head _ _ hn] at hc
      exact dropWhile_head_not _ _ c hc
  · intro c hc
    exact dropTrailing_getLast_not _ _ c hc


theorem hasPrefixL_iff (p s : List Char) : hasPrefixL p s = true ↔ p <+: s := by
  induction p generalizing s with
  | nil => simp [hasPrefixL]
  | cons a p ih =>
    cases s with
    | nil => simp [hasPrefixL]
    | cons b s => simp [hasPrefixL, ih, List.cons_prefix_cons]

theorem containsL_iff (sub s : List Char) : containsL sub s = true ↔ sub <:+: s := by
  induction s with
  | nil =>
    simp only [containsL, hasPrefixL_iff, List.prefix_nil, List.infix_nil]
  | cons c s ih =>
    simp only [containsL, Bool.or_eq_true, hasPrefixL_iff, ih, List.infix_cons_iff]

theorem drop_of_prefix {o s : List Char} (h : o <+: s) : o ++ s.drop o.length = s := by
  obtain ⟨t, rfl⟩ := h
  simp

theorem Apart.old_ne_nil {new old : List Char} (h : Apart new old) : old ≠ [] := by
  rintro rfl
  exact h.old_not_in_new List.nil_infix

/-- Replacement creates no occurrence of `old` that starts in the part already scanned. -/
theorem replaceScan_no_start {new old : List Char} (h : Apart new old) :
    ∀ (fuel : Nat) (s p : List Char), s.length ≤ fuel → ¬ old <+: p ++ s →
      ¬ old <+: p ++ replaceScan old new fuel s := by
  intro fuel
  induction fuel with
  | zero =>
    intro s p hs hp
    have : s = [] := List.length_eq_zero.mp (Nat.le_zero.mp hs)
    subst this
    simpa [replaceScan] using hp
  | succ fuel ih =>
    intro s p hs hp
    cases s with
    | nil => simpa [replaceScan] using hp
    | cons c t =>
      by_cases hpre : hasPrefixL old (c :: t) = true
      · simp only [replaceScan, hpre, if_true]
        have hpre2 := (hasPrefixL_iff _ _).1 hpre
        rintro ⟨z, hz⟩
        -- old ++ z = p ++ (new ++ rest)
        rcases List.append_eq_append_iff.1 hz with ⟨a, ha, -⟩ | ⟨q, hq, hq2⟩
        · -- p = old ++ a
          exact hp ⟨a ++ c :: t, by rw [ha]; simp⟩
        · -- old = p ++ q,  new ++ rest = q ++ z
          rcases List.append_eq_append_iff.1 hq2 with ⟨a, ha, -⟩ | ⟨b, hb, -⟩
          · -- q = new ++ a
            exact h.new_not_in_old ⟨p, a, by rw [hq, ha]; simp⟩
          · -- new = q ++ b
            by_cases hqn : q = []
            · subst hqn
              simp only [List.append_nil] at hq
              exact hp ⟨c :: t, by rw [hq]⟩
            · exact h.start_not_suffix q b p hqn hb hq
      · simp only [replaceScan, hpre, Bool.false_eq_true, if_false]
        have := ih t (p ++ [c]) (by simpa using hs) (by simpa using hp)
        simpa using this

/-- An occurrence in `a ++ r` lies in `r` or starts in `a`. -/
theorem infix_append_cases (o a r : List Char) (h : o <:+: a ++ r) :
    o <:+: r ∨ ∃ x y, x ≠ [] ∧ a = y ++ x ∧ o <+: x ++ r := by
  induction a with
  | nil => exact Or.inl (by simpa using h)
  | cons c a ih =>
    rw [List.cons_append, List.infix_cons_iff] at h
    rcases h with h | h
    · exact Or.inr ⟨c :: a, [], by simp, by simp, by simpa using h⟩
    · rcases ih h with h | ⟨x, y, hx, hy, hxy⟩
      · exact Or.inl h
      · exact Or.inr ⟨x, c :: y, hx, by simp [hy], hxy⟩

/-- After replacement no occurrence of `old` is left. -/
theorem replaceScan_clean {new old : List Char} (h : Apart new old) :
    ∀ (fuel : Nat) (s : List Char), s.length ≤ fuel →
      ¬ old <:+: replaceScan old new fuel s := by
  intro fuel
  induction fuel with
  | zero =>
    intro s hs
    have : s = [] := List.length_eq_zero.mp (Nat.le_zero.mp hs)
    subst this
    simpa [replaceScan] using h.old_ne_nil
  | succ fuel ih =>
    intro s hs
    cases s with
    | nil => simpa [replaceScan] using h.old_ne_nil
    | cons c t =>
      by_cases hpre : hasPrefixL old (c :: t) = true
      · simp only [replaceScan, hpre, if_true]
        intro hin
        have hlen : ((c :: t).drop old.length).length ≤ fuel := by
          have hpos : 0 < old.length := List.length_pos.mpr h.old_ne_nil
          simp only [List.length_drop, List.length_cons] at hs ⊢
          omega
        rcases infix_append_cases _ _ _ hin with h1 | ⟨x, y, hx, hy, ⟨z, hz⟩⟩
        · exact ih _ hlen h1
        · rcases List.append_eq_append_iff.1 hz with ⟨a, ha, -⟩ | ⟨b, hb, -⟩
          · -- x = old ++ a
            exact h.old_not_in_new ⟨y, a, by rw [hy, ha]; simp⟩
          · -- old = x ++ b
            exact h.suffix_not_start x y b hx hy hb
      · have hno : ¬ old <+: [] ++ c :: t := by
          simpa [hasPrefixL_iff] using hpre
        have hG := replaceScan_no_start h (fuel + 1) (c :: t) [] hs hno
        simp only [replaceScan, hpre, Bool.false_eq_true, if_false, List.nil_append] at hG ⊢
        rw [List.infix_cons_iff]
        rintro (h1 | h1)
        · exact hG h1
        · exact ih t (by simpa using hs) h1

theorem apart_of_apartB {new old : List Char} (h : apartB new old = true) : Apart new old := by
  simp only [apartB, Bool.and_eq_true, Bool.not_eq_true', List.all_eq_true, List.mem_range] at h
  obtain ⟨⟨⟨h1, h2⟩, h3⟩, h4⟩ := h
  refine ⟨?_, ?_, ?_, ?_⟩
  · intro hin
    rw [← containsL_iff, h1] at hin
    exact Bool.false_ne_true hin
  · intro hin
    rw [← containsL_iff, h2] at hin
    exact Bool.false_ne_true hin
  · intro x y z hx hn ho
    have hk : y.length < new.length := by
      rw [hn, List.length_append]
      have := List.length_pos.mpr hx
      omega
    have := h3 y.length hk
    have hd : new.drop y.length = x := by rw [hn]; simp
    rw [hd] at this
    have hp : hasPrefixL x old = true := (hasPrefixL_iff _ _).2 ⟨z, ho.symm⟩
    rw [hp] at this
    exact Bool.false_ne_true this.symm
  · intro x y z hx hn ho
    have hpos := List.length_pos.mpr hx
    have hk : x.length - 1 < new.length := by
      rw [hn, List.length_append]
      omega
    have := h4 (x.length - 1) hk
    have hd : new.take (x.length - 1 + 1) = x := by
      rw [Nat.sub_add_cancel hpos, hn]; simp
    rw [hd] at this
    have hp : hasPrefixL x.reverse old.reverse = true :=
      (hasPrefixL_iff _ _).2 ⟨z.reverse, by rw [ho]; simp⟩
    rw [hp] at this
    exact Bool.false_ne_true this.symm

theorem replaceAllL_clean (s new old : List Char) (h : apartB new old = true) :
    containsL old (replaceAllL s old new) = false := by
  have hA := apart_of_apartB h
  have hne := hA.old_ne_nil
  cases old with
  | nil => exact absurd rfl hne
  | cons c o =>
    simp only [replaceAllL]
    have := replaceScan_clean hA s.length s (Nat.le_refl _)
    rw [← containsL_iff] at this
    simpa using this

/-- The scan does not depend on the fuel once there is at least one unit per character. -/
theorem replaceScan_fuel (old new : List Char) (hold : old ≠ []) :
    ∀ (n : Nat) (s : List Char) (f1 f2 : Nat), s.length ≤ n → s.length ≤ f1 → s.length ≤ f2 →
      replaceScan old new f1 s = replaceScan old new f2 s := by
  intro n
  induction n with
  | zero =>
    intro s f1 f2 hn _ _
    have : s = [] := List.length_eq_zero.mp (Nat.le_zero.mp hn)
    subst this
    cases f1 <;> cases f2 <;> rfl
  | succ n ih =>
    intro s f1 f2 hn h1 h2
    cases s with
    | nil => cases f1 <;> cases f2 <;> rfl
    | cons c t =>
      cases f1 with
      | zero => simp at h1
      | succ a =>
        cases f2 with
        | zero => simp at h2
        | succ b =>
          have hpos : 0 < old.length := List.length_pos.mpr hold
          simp only [List.length_cons] at hn h1 h2
          simp only [replaceScan]
          split
          · have hlen : ((c :: t).drop old.length).length ≤ t.length := by
              simp only [List.length_drop, List.length_cons]
              omega
            rw [ih _ a b (by omega) (by omega) (by omega)]
          · rw [ih t a b (by omega) (by omega) (by omega)]

end GoLib

namespace Traefik

open GoLib
@[simp] theorem bind_run {α β : Type} (x : M α) (f : α → M β) (w : World) :
    (x >>= f) w = match x w with
      | Run.ok a w1 => f a w1
      | Run.exit c w1 => Run.exit c w1 := rfl

@[simp] theorem pure_run {α : Type} (a : α) (w : World) : (pure a : M α) w = Run.ok a w := rfl

theorem callsSince_record (w : World) (c : Call) (e : Ext) :
    callsSince w (w.record c e) = [c] := by
  simp [callsSince, World.record]

theorem fileExists_run (path : String) (w : World) :
    fileExists path w = Run.ok
      (match w.ext.files (w.ext.resolve path) with
        | some (Node.file _ _) => true
        | _ => false) (w.record (Call.stat path) w.ext) := by
  simp only [fileExists, bind_run, osStat]
  cases h : w.ext.files (w.ext.resolve path) with
  | none => rfl
  | some n => cases n <;> rfl

theorem fileExists_true {path : String} {w w1 : World} (h : fileExists path w = Run.ok true w1) :
    w1 = w.record (Call.stat path) w.ext ∧
      ∃ content mode, w.ext.files (w.ext.resolve path) = some (Node.file content mode) := by
  rw [fileExists_run] at h
  cases hf : w.ext.files (w.ext.resolve path) with
  | none => simp [hf] at h
  | some n =>
    cases n with
    | dir => simp [hf] at h
    | file c m =>
      simp [hf] at h
      exact ⟨h.symm, c, m, rfl⟩


theorem fields_docker : Fields "docker" = ["docker"] := by decide

theorem fileExists_false {path : String} {w w1 : World}
    (h : fileExists path w = Run.ok false w1) :
    w1 = w.record (Call.stat path) w.ext ∧
      (w.ext.files (w.ext.resolve path) = none ∨
        w.ext.files (w.ext.resolve path) = some Node.dir) := by
  rw [fileExists_run] at h
  cases hf : w.ext.files (w.ext.resolve path) with
  | none =>
    simp [hf] at h
    exact ⟨h.symm, Or.inl rfl⟩
  | some n =>
    cases n with
    | dir =>
      simp [hf] at h
      exact ⟨h.symm, Or.inr rfl⟩
    | file c m => simp [hf] at h

theorem callsSince_record2 (w : World) (c1 c2 : Call) (e1 e2 : Ext) :
    callsSince w ((w.record c1 e1).record c2 e2) = [c1, c2] := by
  simp [callsSince, World.record]

theorem callsSince_record3 (w : World) (c1 c2 c3 : Call) (e1 e2 e3 : Ext) :
    callsSince w (((w.record c1 e1).record c2 e2).record c3 e3) = [c1, c2, c3] := by
  simp [callsSince, World.record]

/-- A write to a path that holds no regular file: it fails, or it creates the file. -/
theorem writeFile_absent (path content : String) (w w1 : World)
    (habs : w.ext.files (w.ext.resolve path) = none ∨
      w.ext.files (w.ext.resolve path) = some Node.dir)
    (h : writeFile path content w = Run.ok () w1) :
    w.ext.files (w.ext.resolve path) = none ∧ w.ext.unwritable (w.ext.resolve path) = false ∧
    w1 = w.record (Call.writeFile path content 0o644)
      (w.ext.setFile path (Node.file content (createdMode w.ext.goos 0o644 w.ext.umask))) := by
  simp only [writeFile, bind_run, osWriteFile] at h
  by_cases hu : w.ext.unwritable (w.ext.resolve path) = true
  · simp [hu, exitErr] at h
  · rcases habs with hf | hf
    · cases hcut : w.ext.writeCut (w.ext.resolve path) with
      | some k => simp [hu, hf, hcut, exitErr] at h
      | none =>
        simp [hu, hf, hcut] at h
        simp at hu
        exact ⟨hf, hu, h.symm⟩
    · simp [hu, hf, exitErr] at h

theorem ensureNetwork_twice (network : String) (w w1 : World)
    (habs : ∃ e w0, cmdRun ["docker", "network", "inspect", network] w = Run.ok (some e) w0)
    (h : ensureNetwork network w = Run.ok () w1) :
    (callsSince w w1).filter Call.isCreate = [Call.run ["docker", "network", "create", network]] ∧
    ∃ w2, ensureNetwork network w1 = Run.ok () w2 ∧ w2.ext = w1.ext ∧
      (callsSince w1 w2).filter Call.isCreate = [] := by
  obtain ⟨e, w0, habs⟩ := habs
  simp only [cmdRun] at habs
  cases hc : commandEffect w.ext ["docker", "network", "inspect", network] with
  | some e1 => simp [hc] at habs
  | none =>
    simp only [ensureNetwork, bind_run, cmdRun, hc, runCmd, fields_docker] at h
    simp only [List.nil_append, World.record] at h
    cases hc2 : commandEffect w.ext ["docker", "network", "create", network] with
    | none => simp [hc2, exitErr] at h
    | some e2 =>
      simp only [hc2, pure_run] at h
      injection h with _ h
      subst h
      simp only [commandEffect] at hc2
      split at hc2
      · rename_i hcond
        simp only [Option.some.injEq] at hc2
        subst hc2
        simp only [Bool.and_eq_true, Bool.not_eq_true', List.contains_eq_any_beq] at hcond
        refine ⟨by simp [callsSince, Call.isCreate], ?_⟩
        have hins : commandEffect { w.ext with networks := w.ext.networks ++ [network] }
            ["docker", "network", "inspect", network] =
            some { w.ext with networks := w.ext.networks ++ [network] } := by
          simp [commandEffect, hcond.1.1, hcond.1.2]
        simp only [ensureNetwork, bind_run, cmdRun, hins, pure_run]
        refine ⟨_, rfl, ?_, ?_⟩
        · rfl
        · simp [callsSince, World.record, Call.isCreate]
      · simp at hc2


@[simp] theorem setFile_files_self (e : Ext) (path : String) (n : Node) :
    (e.setFile path n).files ((e.setFile path n).resolve path) = some n := by
  simp [Ext.setFile, setNode, Ext.resolve]

@[simp] theorem setFile_files_self2 (e : Ext) (path : String) (n : Node) :
    (e.setFile path n).files (e.resolve path) = some n := by
  simp [Ext.setFile, setNode, Ext.resolve]

@[simp] theorem setFile_resolve (e : Ext) (path q : String) (n : Node) :
    (e.setFile path n).resolve q = e.resolve q := rfl

@[simp] theorem record_ext (w : World) (c : Call) (e : Ext) : (w.record c e).ext = e := rfl

theorem fileExists_of_file (path content : String) (mode : Nat) (w : World)
    (h : w.ext.files (w.ext.resolve path) = some (Node.file content mode)) :
    fileExists path w = Run.ok true (w.record (Call.stat path) w.ext) := by
  rw [fileExists_run, h]

/-- The shape shared by the ensure functions for files: look, and write when there is no
regular file. -/
theorem ensureFile_twice (path content : String) (w w1 : World)
    (habs : ∃ w0, fileExists path w = Run.ok false w0)
    (h : (do let ex ← fileExists path; if ex then pure () else writeFile path content : M Unit) w
      = Run.ok () w1) :
    w1 = (w.record (Call.stat path) w.ext).record (Call.writeFile path content 0o644)
      (w.ext.setFile path (Node.file content (createdMode w.ext.goos 0o644 w.ext.umask))) := by
  obtain ⟨w0, habs⟩ := habs
  obtain ⟨rfl, hfile⟩ := fileExists_false habs
  simp only [bind_run, habs] at h
  simp only [Bool.false_eq_true, ↓reduceIte] at h
  exact (writeFile_absent path content (w.record (Call.stat path) w.ext) w1 hfile h).2.2

/-- The shape shared by the ensure functions for files, when the file is there. -/
theorem ensureFile_present (path : String) (create : M Unit) (w : World)
    (h : ∃ content mode, w.ext.files (w.ext.resolve path) = some (Node.file content mode)) :
    (do let ex ← fileExists path; if ex then pure () else create : M Unit) w
      = Run.ok () (w.record (Call.stat path) w.ext) := by
  obtain ⟨content, mode, h⟩ := h
  simp only [bind_run, fileExists_of_file path content mode w h]
  rfl

theorem ensureTraefikConfig_present (network : String) (w : World)
    (h : ∃ content mode,
      w.ext.files (w.ext.resolve "traefik.yml") = some (Node.file content mode)) :
    ensureTraefikConfig network w = Run.ok () (w.record (Call.stat "traefik.yml") w.ext) :=
  ensureFile_present "traefik.yml" _ w h

theorem ensureComposeConfig_present (version dashboardPort network : String) (w : World)
    (h : ∃ content mode,
      w.ext.files (w.ext.resolve "docker-compose.yml") = some (Node.file content mode)) :
    ensureComposeConfig version dashboardPort network w =
      Run.ok () (w.record (Call.stat "docker-compose.yml") w.ext) :=
  ensureFile_present "docker-compose.yml" _ w h

theorem ensureAcme_present (w : World)
    (h : ∃ content mode,
      w.ext.files (w.ext.resolve "acme.json") = some (Node.file content mode)) :
    ensureAcme w = Run.ok () (w.record (Call.stat "acme.json") w.ext) :=
  ensureFile_present "acme.json" _ w h

theorem ensureTraefikConfig_twice (network : String) (w w1 : World)
    (habs : ∃ w0, fileExists "traefik.yml" w = Run.ok false w0)
    (h : ensureTraefikConfig network w = Run.ok () w1) :
    (callsSince w w1).filter Call.isCreate =
      [Call.writeFile "traefik.yml" (traefikTemplate network) 0o644] ∧
    ∃ w2, ensureTraefikConfig network w1 = Run.ok () w2 ∧ w2.ext = w1.ext ∧
      (callsSince w1 w2).filter Call.isCreate = [] := by
  have h1 := ensureFile_twice "traefik.yml" (traefikTemplate network) w w1 habs h
  subst h1
  refine ⟨by simp [callsSince_record2, Call.isCreate], ?_⟩
  exact ⟨_, ensureTraefikConfig_present network _ ⟨_, _, setFile_files_self _ _ _⟩, rfl,
    by simp [callsSince_record, Call.isCreate]⟩

theorem ensureComposeConfig_twice (version dashboardPort network : String) (w w1 : World)
    (habs : ∃ w0, fileExists "docker-compose.yml" w = Run.ok false w0)
    (h : ensureComposeConfig version dashboardPort network w = Run.ok () w1) :
    (callsSince w w1).filter Call.isCreate =
      [Call.writeFile "docker-compose.yml" (composeTemplate version dashboardPort network)
        0o644] ∧
    ∃ w2, ensureComposeConfig version dashboardPort network w1 = Run.ok () w2 ∧
      w2.ext = w1.ext ∧ (callsSince w1 w2).filter Call.isCreate = [] := by
  have h1 := ensureFile_twice "docker-compose.yml"
    (composeTemplate version dashboardPort network) w w1 habs h
  subst h1
  refine ⟨by simp [callsSince_record2, Call.isCreate], ?_⟩
  exact ⟨_, ensureComposeConfig_present version dashboardPort network _
    ⟨_, _, setFile_files_self _ _ _⟩, rfl, by simp [callsSince_record, Call.isCreate]⟩

/-- What `ensureAcme` does when `acme.json` is no regular file and the call returns: off
Windows the write and a chmod that goes through, or the write and a chmod that is refused; on
Windows the write alone. -/
theorem ensureAcme_absent (w w1 : World)
    (habs : ∃ w0, fileExists "acme.json" w = Run.ok false w0)
    (h : ensureAcme w = Run.ok () w1) :
    (w.ext.goos ≠ "windows" ∧ w.ext.chmodDenied (w.ext.resolve "acme.json") = false ∧
      w1 = ((w.record (Call.stat "acme.json") w.ext).record (Call.writeFile "acme.json" "" 0o644)
        (w.ext.setFile "acme.json"
          (Node.file "" (createdMode w.ext.goos 0o644 w.ext.umask)))).record
        (Call.chmod "acme.json" 0o600)
        ((w.ext.setFile "acme.json"
          (Node.file "" (createdMode w.ext.goos 0o644 w.ext.umask))).setFile
          "acme.json" (Node.file "" (chmodMode w.ext.goos 0o600)))) ∨
    (w.ext.goos ≠ "windows" ∧ w.ext.chmodDenied (w.ext.resolve "acme.json") = true ∧
      w1 = ((w.record (Call.stat "acme.json") w.ext).record (Call.writeFile "acme.json" "" 0o644)
        (w.ext.setFile "acme.json"
          (Node.file "" (createdMode w.ext.goos 0o644 w.ext.umask)))).record
        (Call.chmod "acme.json" 0o600)
        (w.ext.setFile "acme.json"
          (Node.file "" (createdMode w.ext.goos 0o644 w.ext.umask)))) ∨
    (w.ext.goos = "windows" ∧
      w1 = (w.record (Call.stat "acme.json") w.ext).record (Call.writeFile "acme.json" "" 0o644)
        (w.ext.setFile "acme.json"
          (Node.file "" (createdMode w.ext.goos 0o644 w.ext.umask)))) := by
  obtain ⟨w0, habs⟩ := habs
  obtain ⟨rfl, hfile⟩ := fileExists_false habs
  simp only [ensureAcme, bind_run, habs] at h
  simp only [Bool.false_eq_true, ↓reduceIte] at h
  cases hw : writeFile "acme.json" "" (w.record (Call.stat "acme.json") w.ext) with
  | exit c w3 => simp [hw] at h
  | ok u w3 =>
    have h3 := (writeFile_absent "acme.json" "" (w.record (Call.stat "acme.json") w.ext)
      w3 hfile hw).2.2
    simp only [record_ext] at h3
    subst h3
    simp only [bind_run, hw, runtimeGOOS, record_ext] at h
    by_cases hg : w.ext.goos = "windows"
    · right; right
      have hgo : ((w.ext.setFile "acme.json"
          (Node.file "" (createdMode w.ext.goos 0o644 w.ext.umask))).goos != "windows")
          = false := by
        show (w.ext.goos != "windows") = false
        simp [hg]
      simp only [hgo, Bool.false_eq_true, ↓reduceIte, pure_run] at h
      injection h with _ h
      exact ⟨hg, h.symm⟩
    · have hb : (w.ext.goos != "windows") = true := by simpa using hg
      have hgo : ((w.ext.setFile "acme.json"
          (Node.file "" (createdMode w.ext.goos 0o644 w.ext.umask))).goos != "windows")
          = true := hb
      have hden : ∀ b, w.ext.chmodDenied (w.ext.resolve "acme.json") = b →
          (w.ext.setFile "acme.json"
            (Node.file "" (createdMode w.ext.goos 0o644 w.ext.umask))).chmodDenied
            (w.ext.resolve "acme.json") = b := fun _ hb2 => hb2
      have hgoos : (w.ext.setFile "acme.json"
          (Node.file "" (createdMode w.ext.goos 0o644 w.ext.umask))).goos = w.ext.goos := rfl
      by_cases hd : w.ext.chmodDenied (w.ext.resolve "acme.json") = true
      · right; left
        simp only [hgo, ↓reduceIte, bind_run, osChmod, record_ext, setFile_resolve,
          setFile_files_self2, hden true hd, pure_run] at h
        injection h with _ h
        exact ⟨hg, hd, h.symm⟩
      · left
        have hd2 : w.ext.chmodDenied (w.ext.resolve "acme.json") = false := by simpa using hd
        simp only [hgoos, hb, ↓reduceIte, bind_run, osChmod, record_ext, setFile_resolve,
          setFile_files_self2, hden false hd2, Bool.false_eq_true, pure_run] at h
        injection h with _ h
        exact ⟨hg, hd2, h.symm⟩

theorem ensureAcme_twice (w w1 : World)
    (habs : ∃ w0, fileExists "acme.json" w = Run.ok false w0)
    (h : ensureAcme w = Run.ok () w1) :
    (callsSince w w1).filter Call.isCreate = [Call.writeFile "acme.json" "" 0o644] ∧
    ∃ w2, ensureAcme w1 = Run.ok () w2 ∧ w2.ext = w1.ext ∧
      (callsSince w1 w2).filter Call.isCreate = [] := by
  rcases ensureAcme_absent w w1 habs h with ⟨-, -, rfl⟩ | ⟨-, -, rfl⟩ | ⟨-, rfl⟩
  · refine ⟨by simp [callsSince_record3, Call.isCreate], ?_⟩
    exact ⟨_, ensureAcme_present _ ⟨_, _, setFile_files_self _ _ _⟩, rfl,
      by simp [callsSince_record, Call.isCreate]⟩
  · refine ⟨by simp [callsSince_record3, Call.isCreate], ?_⟩
    exact ⟨_, ensureAcme_present _ ⟨_, _, setFile_files_self _ _ _⟩, rfl,
      by simp [callsSince_record, Call.isCreate]⟩
  · refine ⟨by simp [callsSince_record2, Call.isCreate], ?_⟩
    exact ⟨_, ensureAcme_present _ ⟨_, _, setFile_files_self _ _ _⟩, rfl,
      by simp [callsSince_record, Call.isCreate]⟩

theorem ensureNetwork_present (network : String) (w : World)
    (h : ∃ w1, cmdRun ["docker", "network", "inspect", network] w = Run.ok none w1) :
    ensureNetwork network w =
      Run.ok () (w.record (Call.run ["docker", "network", "inspect", network]) w.ext) := by
  obtain ⟨w1, h⟩ := h
  simp only [ensureNetwork, bind_run]
  simp only [cmdRun] at h ⊢
  cases hc : commandEffect w.ext ["docker", "network", "inspect", network] with
  | none => simp [hc] at h
  | some e =>
    have he : e = w.ext := by
      simp only [commandEffect] at hc
      split at hc <;> simp_all
    subst he
    rfl

theorem inspect_not_mutation (network : String) :
    Call.isMutation (Call.run ["docker", "network", "inspect", network]) = false := by
  simp [Call.isMutation]

/-- C4: when the existence check succeeds (`docker network inspect` exits 0, `fileExists`
returns true), each ensure function returns, leaves the outside state as it was, and the only
call it makes is the check itself, which changes nothing. -/
theorem ensure_present_no_mutation (w : World) (network version dashboardPort : String) :
    ((∃ w1, cmdRun ["docker", "network", "inspect", network] w = Run.ok none w1) →
      ∃ w2, ensureNetwork network w = Run.ok () w2 ∧ w2.ext = w.ext ∧
        callsSince w w2 = [Call.run ["docker", "network", "inspect", network]] ∧
        ∀ c ∈ callsSince w w2, Call.isMutation c = false) ∧
    ((∃ w1, fileExists "traefik.yml" w = Run.ok true w1) →
      ∃ w2, ensureTraefikConfig network w = Run.ok () w2 ∧ w2.ext = w.ext ∧
        callsSince w w2 = [Call.stat "traefik.yml"] ∧
        ∀ c ∈ callsSince w w2, Call.isMutation c = false) ∧
    ((∃ w1, fileExists "docker-compose.yml" w = Run.ok true w1) →
      ∃ w2, ensureComposeConfig version dashboardPort network w = Run.ok () w2 ∧
        w2.ext = w.ext ∧ callsSince w w2 = [Call.stat "docker-compose.yml"] ∧
        ∀ c ∈ callsSince w w2, Call.isMutation c = false) ∧
    ((∃ w1, fileExists "acme.json" w = Run.ok true w1) →
      ∃ w2, ensureAcme w = Run.ok () w2 ∧ w2.ext = w.ext ∧
        callsSince w w2 = [Call.stat "acme.json"] ∧
        ∀ c ∈ callsSince w w2, Call.isMutation c = false) := by
  refine ⟨?_, ?_, ?_, ?_⟩
  · intro h
    refine ⟨_, ensureNetwork_present network w h, rfl, callsSince_record _ _ _, ?_⟩
    rw [callsSince_record]
    intro c hc
    rw [List.mem_singleton.1 hc]
    exact inspect_not_mutation network
  · rintro ⟨w1, h⟩
    refine ⟨_, ensureTraefikConfig_present network w (fileExists_true h).2, rfl,
      callsSince_record _ _ _, ?_⟩
    rw [callsSince_record]
    intro c hc
    rw [List.mem_singleton.1 hc]
    rfl
  · rintro ⟨w1, h⟩
    refine ⟨_, ensureComposeConfig_present version dashboardPort network w (fileExists_true h).2,
      rfl, callsSince_record _ _ _, ?_⟩
    rw [callsSince_record]
    intro c hc
    rw [List.mem_singleton.1 hc]
    rfl
  · rintro ⟨w1, h⟩
    refine ⟨_, ensureAcme_present w (fileExists_true h).2, rfl, callsSince_record _ _ _, ?_⟩
    rw [callsSince_record]
    intro c hc
    rw [List.mem_singleton.1 hc]
    rfl

/-- C4 at a concrete state: on a fresh host where `acme.json` is already there, `ensureAcme`
only looks at it. -/
theorem ensure_present_no_mutation_witness :
    ∃ w2, ensureAcme (start (freshExt.setFile "acme.json" (Node.file "" 0o600))) = Run.ok () w2 ∧
      w2.ext = (start (freshExt.setFile "acme.json" (Node.file "" 0o600))).ext ∧
      callsSince (start (freshExt.setFile "acme.json" (Node.file "" 0o600))) w2 =
        [Call.stat "acme.json"] ∧
      ∀ c ∈ callsSince (start (freshExt.setFile "acme.json" (Node.file "" 0o600))) w2,
        Call.isMutation c = false :=
  (ensure_present_no_mutation (start (freshExt.setFile "acme.json" (Node.file "" 0o600)))
    "traefik-network" "v3.0" "8080").2.2.2
    ⟨_, fileExists_of_file "acme.json" "" 0o600 _ (setFile_files_self _ _ _)⟩

/-- C3: for each ensure function, when the resource is absent and the first call returns, the
first call makes exactly one create call, and a second call with the same arguments returns,
makes no create call and leaves the outside state as the first call left it. -/
theorem ensure_idempotent (w w1 : World) (network version dashboardPort : String) :
    ((∃ e w0, cmdRun ["docker", "network", "inspect", network] w = Run.ok (some e) w0) →
      ensureNetwork network w = Run.ok () w1 →
      (callsSince w w1).filter Call.isCreate =
        [Call.run ["docker", "network", "create", network]] ∧
      ∃ w2, ensureNetwork network w1 = Run.ok () w2 ∧ w2.ext = w1.ext ∧
        (callsSince w1 w2).filter Call.isCreate = []) ∧
    ((∃ w0, fileExists "traefik.yml" w = Run.ok false w0) →
      ensureTraefikConfig network w = Run.ok () w1 →
      (callsSince w w1).filter Call.isCreate =
        [Call.writeFile "traefik.yml" (traefikTemplate network) 0o644] ∧
      ∃ w2, ensureTraefikConfig network w1 = Run.ok () w2 ∧ w2.ext = w1.ext ∧
        (callsSince w1 w2).filter Call.isCreate = []) ∧
    ((∃ w0, fileExists "docker-compose.yml" w = Run.ok false w0) →
      ensureComposeConfig version dashboardPort network w = Run.ok () w1 →
      (callsSince w w1).filter Call.isCreate =
        [Call.writeFile "docker-compose.yml" (composeTemplate version dashboardPort network)
          0o644] ∧
      ∃ w2, ensureComposeConfig version dashboardPort network w1 = Run.ok () w2 ∧
        w2.ext = w1.ext ∧ (callsSince w1 w2).filter Call.isCreate = []) ∧
    ((∃ w0, fileExists "acme.json" w = Run.ok false w0) →
      ensureAcme w = Run.ok () w1 →
      (callsSince w w1).filter Call.isCreate = [Call.writeFile "acme.json" "" 0o644] ∧
      ∃ w2, ensureAcme w1 = Run.ok () w2 ∧ w2.ext = w1.ext ∧
        (callsSince w1 w2).filter Call.isCreate = []) :=
  ⟨ensureNetwork_twice network w w1, ensureTraefikConfig_twice network w w1,
    ensureComposeConfig_twice version dashboardPort network w w1, ensureAcme_twice w w1⟩

/-- C3 at a concrete state: `ensureNetwork "net1"` on a fresh host creates the network once,
and a second call creates nothing. -/
theorem ensure_idempotent_witness :
    (callsSince (start freshExt) net1Created).filter Call.isCreate =
        [Call.run ["docker", "network", "create", "net1"]] ∧
      ∃ w2, ensureNetwork "net1" net1Created = Run.ok () w2 ∧ w2.ext = net1Created.ext ∧
        (callsSince net1Created w2).filter Call.isCreate = [] :=
  (ensure_idempotent (start freshExt) net1Created "net1" "v3.0" "8080").1
    ⟨_, _, rfl⟩ rfl


/-- C2, as stated, fails: on Linux with the usual mask `acme.json` exists with mode 0644 between
the write and the chmod, and on Windows, where no chmod is made, it has the mode 0666 that Go
reports there when `ensureAcme` returns. -/
theorem ensureAcme_not_owner_only :
    (∃ w1, ensureAcme (start (emptyExt "linux")) = Run.ok () w1 ∧
      (statesSince (start (emptyExt "linux")) w1).map (fun e => e.modeOf "acme.json") =
        [none, some 0o644, some 0o600] ∧
      ¬ ownerOnlySince "acme.json" (start (emptyExt "linux")) w1) ∧
    (∃ w1, ensureAcme (start (emptyExt "windows")) = Run.ok () w1 ∧
      w1.ext.modeOf "acme.json" = some 0o666 ∧ groupOrOtherRead 0o666 = true ∧
      ¬ ownerOnlySince "acme.json" (start (emptyExt "windows")) w1) := by
  refine ⟨⟨_, rfl, by decide, ?_⟩, ⟨_, rfl, by decide, by decide, ?_⟩⟩
  · intro h
    have hmem : (emptyExt "linux").setFile "acme.json" (Node.file "" 0o644) ∈
        [emptyExt "linux", (emptyExt "linux").setFile "acme.json" (Node.file "" 0o644),
          ((emptyExt "linux").setFile "acme.json" (Node.file "" 0o644)).setFile "acme.json"
            (Node.file "" 0o600)] :=
      List.mem_cons_of_mem _ (List.mem_cons_self _ _)
    exact absurd (h _ hmem 0o644 (by decide)) (by decide)
  · intro h
    have hmem : (emptyExt "windows").setFile "acme.json" (Node.file "" 0o666) ∈
        [emptyExt "windows", (emptyExt "windows").setFile "acme.json" (Node.file "" 0o666)] :=
      List.mem_cons_of_mem _ (List.mem_cons_self _ _)
    exact absurd (h _ hmem 0o666 (by decide)) (by decide)

/-- A write that does not return ends the process with code 1; the write is the only call. -/
theorem writeFile_exit (path content : String) (w w1 : World) (c : Nat)
    (h : writeFile path content w = Run.exit c w1) :
    c = 1 ∧ callsSince w w1 = [Call.writeFile path content 0o644] := by
  simp only [writeFile, bind_run, osWriteFile] at h
  by_cases hu : w.ext.unwritable (w.ext.resolve path) = true
  · simp only [hu, if_true, exitErr] at h
    injection h with h1 h2
    subst h2
    exact ⟨h1.symm, callsSince_record _ _ _⟩
  · simp only [hu, Bool.false_eq_true, if_false] at h
    cases hf : w.ext.files (w.ext.resolve path) with
    | none =>
      cases hcut : w.ext.writeCut (w.ext.resolve path) with
      | none => simp [hf, hcut] at h
      | some k =>
        simp only [hf, hcut, exitErr] at h
        injection h with h1 h2
        subst h2
        exact ⟨h1.symm, callsSince_record _ _ _⟩
    | some n =>
      cases n with
      | file c0 m0 =>
        cases hcut : w.ext.writeCut (w.ext.resolve path) with
        | none => simp [hf, hcut] at h
        | some k =>
          simp only [hf, hcut, exitErr] at h
          injection h with h1 h2
          subst h2
          exact ⟨h1.symm, callsSince_record _ _ _⟩
      | dir =>
        simp only [hf, exitErr] at h
        injection h with h1 h2
        subst h2
        exact ⟨h1.symm, callsSince_record _ _ _⟩

theorem osChmod_returns (path : String) (mode : Nat) (w : World) :
    ∃ r w1, osChmod path mode w = Run.ok r w1 := by
  simp only [osChmod]
  cases w.ext.files (w.ext.resolve path) with
  | none => exact ⟨_, _, rfl⟩
  | some n =>
    by_cases hd : w.ext.chmodDenied (w.ext.resolve path) = true
    · simp only [hd, if_true]
      exact ⟨_, _, rfl⟩
    · simp only [hd, Bool.false_eq_true, if_false]
      cases n with
      | file c0 m0 => exact ⟨_, _, rfl⟩
      | dir => exact ⟨_, _, rfl⟩

theorem modeOf_setFile (e : Ext) (path content : String) (mode : Nat) :
    (e.setFile path (Node.file content mode)).modeOf path = some mode := by
  simp [Ext.modeOf]

theorem contentOf_setFile (e : Ext) (path content : String) (mode : Nat) :
    (e.setFile path (Node.file content mode)).contentOf path = some content := by
  simp [Ext.contentOf]

theorem createdMode_elsewhere (goos : String) (perm umask : Nat) (h : goos ≠ "windows") :
    createdMode goos perm umask = maskedMode perm umask ∧ chmodMode goos perm = perm := by
  have hb : (goos == "windows") = false := by simpa using h
  simp [createdMode, chmodMode, hb]

theorem ensureAcme_exit (w w1 : World) (c : Nat)
    (habs : ∃ w0, fileExists "acme.json" w = Run.ok false w0)
    (h : ensureAcme w = Run.exit c w1) : c = 1 := by
  obtain ⟨w0, habs⟩ := habs
  obtain ⟨rfl, -⟩ := fileExists_false habs
  simp only [ensureAcme, bind_run, habs] at h
  simp only [Bool.false_eq_true, ↓reduceIte, bind_run] at h
  cases hw : writeFile "acme.json" "" (w.record (Call.stat "acme.json") w.ext) with
  | exit c2 w3 =>
    simp only [hw] at h
    injection h with h1 h2
    subst h1 h2
    exact (writeFile_exit _ _ _ _ _ hw).1
  | ok u w3 =>
    simp only [hw, runtimeGOOS] at h
    split at h
    · obtain ⟨r, w4, hch⟩ := osChmod_returns "acme.json" 0o600 w3
      simp [bind_run, hch] at h
    · simp at h

/-- C2, amended: when `acme.json` is absent, `ensureAcme` either returns, having created it,
or ends the process with code 1. When it returns on a platform other than Windows and the
chmod went through, the mode of the file is 0600, which lets neither the group nor others
read; when the chmod was refused, its error is dropped and the mode is the one the write gave,
0644 less the mask; on Windows no chmod is made and the mode is the 0666 that Go reports
there. -/
theorem ensureAcme_final_mode (w : World)
    (habs : ∃ w0, fileExists "acme.json" w = Run.ok false w0) :
    (∃ w1, ensureAcme w = Run.ok () w1 ∧
      ((w.ext.goos ≠ "windows" ∧ w.ext.chmodDenied (w.ext.resolve "acme.json") = false ∧
          w1.ext.modeOf "acme.json" = some 0o600 ∧ groupOrOtherRead 0o600 = false ∧
          callsSince w w1 = [Call.stat "acme.json", Call.writeFile "acme.json" "" 0o644,
            Call.chmod "acme.json" 0o600]) ∨
        (w.ext.goos ≠ "windows" ∧ w.ext.chmodDenied (w.ext.resolve "acme.json") = true ∧
          w1.ext.modeOf "acme.json" = some (maskedMode 0o644 w.ext.umask) ∧
          callsSince w w1 = [Call.stat "acme.json", Call.writeFile "acme.json" "" 0o644,
            Call.chmod "acme.json" 0o600]) ∨
        (w.ext.goos = "windows" ∧ w1.ext.modeOf "acme.json" = some 0o666 ∧
          callsSince w w1 = [Call.stat "acme.json", Call.writeFile "acme.json" "" 0o644]))) ∨
    (∃ w1, ensureAcme w = Run.exit 1 w1) := by
  cases hrun : ensureAcme w with
  | exit c w1 =>
    have hc := ensureAcme_exit w w1 c habs hrun
    subst hc
    exact Or.inr ⟨w1, rfl⟩
  | ok u w1 =>
    left
    refine ⟨w1, rfl, ?_⟩
    rcases ensureAcme_absent w w1 habs hrun with ⟨hg, hd, rfl⟩ | ⟨hg, hd, rfl⟩ | ⟨hg, rfl⟩
    · left
      refine ⟨hg, hd, ?_, by decide, callsSince_record3 _ _ _ _ _ _ _⟩
      rw [record_ext, modeOf_setFile, (createdMode_elsewhere w.ext.goos 0o600 0 hg).2]
    · right; left
      refine ⟨hg, hd, ?_, callsSince_record3 _ _ _ _ _ _ _⟩
      rw [record_ext, modeOf_setFile, (createdMode_elsewhere w.ext.goos 0o644 w.ext.umask hg).1]
    · right; right
      refine ⟨hg, ?_, callsSince_record2 _ _ _ _ _⟩
      rw [record_ext, modeOf_setFile, hg]
      rfl

/-- C2, amended, at a concrete state: a fresh Linux host without `acme.json`. -/
theorem ensureAcme_final_mode_witness :
    (∃ w1, ensureAcme (start freshExt) = Run.ok () w1 ∧
      ((freshExt.goos ≠ "windows" ∧ freshExt.chmodDenied (freshExt.resolve "acme.json") = false ∧
          w1.ext.modeOf "acme.json" = some 0o600 ∧ groupOrOtherRead 0o600 = false ∧
          callsSince (start freshExt) w1 = [Call.stat "acme.json",
            Call.writeFile "acme.json" "" 0o644, Call.chmod "acme.json" 0o600]) ∨
        (freshExt.goos ≠ "windows" ∧ freshExt.chmodDenied (freshExt.resolve "acme.json") = true ∧
          w1.ext.modeOf "acme.json" = some (maskedMode 0o644 freshExt.umask) ∧
          callsSince (start freshExt) w1 = [Call.stat "acme.json",
            Call.writeFile "acme.json" "" 0o644, Call.chmod "acme.json" 0o600]) ∨
        (freshExt.goos = "windows" ∧ w1.ext.modeOf "acme.json" = some 0o666 ∧
          callsSince (start freshExt) w1 =
            [Call.stat "acme.json", Call.writeFile "acme.json" "" 0o644]))) ∨
    (∃ w1, ensureAcme (start freshExt) = Run.exit 1 w1) :=
  ensureAcme_final_mode (start freshExt) ⟨_, rfl⟩

/-- C8: when `traefik.yml` cannot be read, or its content lacks the placeholder,
`injectAcmeEmail` returns, the only call it makes is the read, and the outside state is as it
was. -/
theorem injectAcmeEmail_noop (email : String) (w : World)
    (h : (∃ e w0, osReadFile "traefik.yml" w = Run.ok (Except.error e) w0) ∨
      (∃ data w0, osReadFile "traefik.yml" w = Run.ok (Except.ok data) w0 ∧
        Contains data placeholder = false)) :
    ∃ w1, injectAcmeEmail email w = Run.ok () w1 ∧ w1.ext = w.ext ∧
      callsSince w w1 = [Call.readFile "traefik.yml"] ∧
      ∀ c ∈ callsSince w w1, Call.isMutation c = false := by
  have hcalls : ∀ c ∈ callsSince w (w.record (Call.readFile "traefik.yml") w.ext),
      Call.isMutation c = false := by
    rw [callsSince_record]
    intro c hc
    rw [List.mem_singleton.1 hc]
    rfl
  have hw0 : ∀ r w0, osReadFile "traefik.yml" w = Run.ok r w0 →
      w0 = w.record (Call.readFile "traefik.yml") w.ext := by
    intro r w0 h0
    simp only [osReadFile] at h0
    injection h0 with _ h0
    exact h0.symm
  rcases h with ⟨e, w0, h0⟩ | ⟨data, w0, h0, hc⟩
  · have := hw0 _ _ h0
    subst this
    refine ⟨w.record (Call.readFile "traefik.yml") w.ext, ?_, rfl, callsSince_record _ _ _,
      hcalls⟩
    simp only [injectAcmeEmail, bind_run, h0]
    rfl
  · have := hw0 _ _ h0
    subst this
    refine ⟨w.record (Call.readFile "traefik.yml") w.ext, ?_, rfl, callsSince_record _ _ _,
      hcalls⟩
    simp only [injectAcmeEmail, bind_run, h0, hc]
    rfl

/-- C8 at a concrete state: a `traefik.yml` without the placeholder. -/
theorem injectAcmeEmail_noop_witness :
    ∃ w1, injectAcmeEmail "ops@corp.io" (start (withTraefikYml "log:\n  level: INFO\n")) =
        Run.ok () w1 ∧
      w1.ext = (start (withTraefikYml "log:\n  level: INFO\n")).ext ∧
      callsSince (start (withTraefikYml "log:\n  level: INFO\n")) w1 =
        [Call.readFile "traefik.yml"] ∧
      ∀ c ∈ callsSince (start (withTraefikYml "log:\n  level: INFO\n")) w1,
        Call.isMutation c = false :=
  injectAcmeEmail_noop "ops@corp.io" (start (withTraefikYml "log:\n  level: INFO\n"))
    (Or.inr ⟨_, _, rfl, by decide⟩)


set_option maxRecDepth 1000000 in
/-- C7 at a failing input: on a fresh host, the `traefik.yml` that `ensureTraefikConfig`
generates has no placeholder, so `injectAcmeEmail` writes nothing and the file, left as
generated, does not hold the address. -/
theorem generated_config_lacks_email :
    ∃ w1 w2, ensureTraefikConfig "traefik-network" (start freshExt) = Run.ok () w1 ∧
      injectAcmeEmail "admin@corp.io" w1 = Run.ok () w2 ∧
      Contains (traefikTemplate "traefik-network") placeholder = false ∧
      callsSince w1 w2 = [Call.readFile "traefik.yml"] ∧
      w2.ext.contentOf "traefik.yml" = some (traefikTemplate "traefik-network") ∧
      Contains (traefikTemplate "traefik-network") "admin@corp.io" = false := by
  refine ⟨_, _, rfl, rfl, ?_, ?_, ?_, ?_⟩
  · decide
  · decide
  · rfl
  · decide

set_option maxRecDepth 1000000 in
/-- C10, as stated, fails: the address `email@example.com` does not contain the placeholder,
yet one run on `your-your-email@example.com` leaves the placeholder itself, which a second run
replaces again. -/
theorem injectAcmeEmail_not_idempotent :
    Contains "email@example.com" placeholder = false ∧
    ∃ w1 w2,
      injectAcmeEmail "email@example.com" (start (withTraefikYml "your-your-email@example.com"))
        = Run.ok () w1 ∧
      injectAcmeEmail "email@example.com" w1 = Run.ok () w2 ∧
      w1.ext.contentOf "traefik.yml" = some "your-email@example.com" ∧
      w2.ext.contentOf "traefik.yml" = some "email@example.com" ∧
      w2.ext.contentOf "traefik.yml" ≠ w1.ext.contentOf "traefik.yml" := by
  refine ⟨by decide, _, _, rfl, rfl, ?_, ?_, ?_⟩
  · decide
  · decide
  · decide


theorem injectAcmeEmail_skip (email : String) (w : World)
    (h : ∀ data, w.ext.contentOf "traefik.yml" = some data → Contains data placeholder = false) :
    injectAcmeEmail email w = Run.ok () (w.record (Call.readFile "traefik.yml") w.ext) := by
  simp only [injectAcmeEmail, bind_run, osReadFile]
  cases hf : w.ext.files (w.ext.resolve "traefik.yml") with
  | none => rfl
  | some n =>
    cases n with
    | dir => rfl
    | file content mode =>
      have := h content (by simp [Ext.contentOf, hf])
      simp only [this]
      rfl

theorem contains_replaceAll (data email : String) (h : overlapFree email = true) :
    Contains (ReplaceAll data placeholder email) placeholder = false :=
  replaceAllL_clean data.data email.data placeholder.data h

/-- After a run that returns, for an address apart from the placeholder, the content has no
placeholder and a second run only reads the file. -/
theorem injectAcmeEmail_twice (email : String) (w w1 : World)
    (hfree : overlapFree email = true) (h : injectAcmeEmail email w = Run.ok () w1) :
    (∀ data, w1.ext.contentOf "traefik.yml" = some data → Contains data placeholder = false) ∧
    ∃ w2, injectAcmeEmail email w1 = Run.ok () w2 ∧ w2.ext = w1.ext ∧
      callsSince w1 w2 = [Call.readFile "traefik.yml"] := by
  have hclean : ∀ data, w1.ext.contentOf "traefik.yml" = some data →
      Contains data placeholder = false := by
    simp only [injectAcmeEmail, bind_run, osReadFile] at h
    cases hf : w.ext.files (w.ext.resolve "traefik.yml") with
    | none =>
      simp only [hf, pure_run] at h
      injection h with _ h
      subst h
      intro data hd
      simp [Ext.contentOf, hf] at hd
    | some n =>
      cases n with
      | dir =>
        simp only [hf, pure_run] at h
        injection h with _ h
        subst h
        intro data hd
        simp [Ext.contentOf, hf] at hd
      | file content mode =>
        simp only [hf] at h
        by_cases hc : Contains content placeholder = true
        · simp only [hc, Bool.not_true, Bool.false_eq_true, if_false, writeFile, bind_run,
            osWriteFile, record_ext] at h
          by_cases hu : w.ext.unwritable (w.ext.resolve "traefik.yml") = true
          · simp [hu, exitErr] at h
          · cases hcut : w.ext.writeCut (w.ext.resolve "traefik.yml") with
            | some k => simp [hu, hf, hcut, exitErr] at h
            | none =>
              simp only [hu, Bool.false_eq_true, if_false, hf, hcut, pure_run] at h
              injection h with _ h
              subst h
              intro data hd
              rw [record_ext, contentOf_setFile] at hd
              injection hd with hd
              subst hd
              exact contains_replaceAll content email hfree
        · simp only [hc, Bool.not_false, if_true, pure_run] at h
          injection h with _ h
          subst h
          intro data hd
          simp only [record_ext, Ext.contentOf, hf, Option.some.injEq] at hd
          subst hd
          simpa using hc
  exact ⟨hclean, _, injectAcmeEmail_skip email w1 hclean, rfl, callsSince_record _ _ _⟩

theorem injectAcmeEmail_exit (email : String) (w w1 : World) (c : Nat)
    (h : injectAcmeEmail email w = Run.exit c w1) : c = 1 := by
  simp only [injectAcmeEmail, bind_run, osReadFile] at h
  cases hf : w.ext.files (w.ext.resolve "traefik.yml") with
  | none => simp [hf] at h
  | some n =>
    cases n with
    | dir => simp [hf] at h
    | file content mode =>
      simp only [hf] at h
      by_cases hc : Contains content placeholder = true
      · simp only [hc, Bool.not_true, Bool.false_eq_true, if_false] at h
        exact (writeFile_exit _ _ _ _ _ h).1
      · simp [hc] at h

/-- C10, amended: for an address that is apart from the placeholder (neither occurs in the
other, no end of the address starts the placeholder, no start of the address ends it), a run
of `injectAcmeEmail` returns or, when its write fails, ends the process with code 1; when it
returns, the content of `traefik.yml` has no placeholder and a second run returns, only reads
the file and leaves the outside state as the first run left it. -/
theorem injectAcmeEmail_idempotent (email : String) (w : World)
    (hfree : overlapFree email = true) :
    (∃ w1, injectAcmeEmail email w = Run.ok () w1 ∧
      (∀ data, w1.ext.contentOf "traefik.yml" = some data →
        Contains data placeholder = false) ∧
      ∃ w2, injectAcmeEmail email w1 = Run.ok () w2 ∧ w2.ext = w1.ext ∧
        callsSince w1 w2 = [Call.readFile "traefik.yml"]) ∨
    (∃ w1, injectAcmeEmail email w = Run.exit 1 w1) := by
  cases hrun : injectAcmeEmail email w with
  | ok u w1 => exact Or.inl ⟨w1, rfl, injectAcmeEmail_twice email w w1 hfree hrun⟩
  | exit c w1 =>
    have hc := injectAcmeEmail_exit email w w1 c hrun
    subst hc
    exact Or.inr ⟨w1, rfl⟩

set_option maxRecDepth 1000000 in
/-- C10, amended, at a concrete state: the address `admin@corp.io` and a file that holds the
placeholder. -/
theorem injectAcmeEmail_idempotent_witness :
    (∃ w1, injectAcmeEmail "admin@corp.io" placeholderYml = Run.ok () w1 ∧
      (∀ data, w1.ext.contentOf "traefik.yml" = some data →
        Contains data placeholder = false) ∧
      ∃ w2, injectAcmeEmail "admin@corp.io" w1 = Run.ok () w2 ∧ w2.ext = w1.ext ∧
        callsSince w1 w2 = [Call.readFile "traefik.yml"]) ∨
    (∃ w1, injectAcmeEmail "admin@corp.io" placeholderYml = Run.exit 1 w1) :=
  injectAcmeEmail_idempotent "admin@corp.io" placeholderYml (by decide)

theorem provision_missing (w : World)
    (h : w.ext.onPath "docker" = false ∨
      (w.ext.composePlugin = false ∧ w.ext.onPath "docker-compose" = false)) :
    ∃ l, (provision w).exitCode = some 1 ∧ (provision w).world.ext = w.ext ∧
      (provision w).world.trace = w.trace ++ l ∧ ∀ p ∈ l, Call.isPreflight p.1 = true := by
  by_cases hd : w.ext.onPath "docker" = true
  · have hc : w.ext.composePlugin = false ∧ w.ext.onPath "docker-compose" = false := by
      rcases h with h | h
      · rw [hd] at h; exact absurd h (by decide)
      · exact h
    refine ⟨[(Call.lookPath "docker", w.ext), (Call.lookPath "docker", w.ext),
      (Call.run ["docker", "compose", "version"], w.ext),
      (Call.lookPath "docker-compose", w.ext)], ?_⟩
    simp only [provision, bind_run, getenvDefaultM, ensureDocker, lookPath, hd, if_true,
      pure_run, resolveCompose, cmdRun, commandEffect, record_ext, hc.1, hc.2,
      Bool.and_false, Bool.false_eq_true, if_false, Option.isNone_some, exitErr]
    refine ⟨rfl, rfl, ?_, ?_⟩
    · simp [Run.world, World.record]
    · intro p hp
      simp only [List.mem_cons, List.mem_singleton, List.not_mem_nil, or_false] at hp
      rcases hp with rfl | rfl | rfl | rfl <;> rfl
  · have hd2 : w.ext.onPath "docker" = false := by simpa using hd
    refine ⟨[(Call.lookPath "docker", w.ext)], ?_⟩
    simp only [provision, bind_run, getenvDefaultM, ensureDocker, lookPath, hd2,
      Bool.false_eq_true, if_false, exitErr]
    refine ⟨rfl, rfl, ?_, ?_⟩
    · simp [Run.world, World.record]
    · intro p hp
      rw [List.mem_singleton.1 hp]
      rfl

/-- A list of preflight calls after a prefix of preflight calls. -/
theorem callsSince_append (w0 w : World) (pre l : List (Call × Ext))
    (ht : w.trace = (w0.trace ++ pre) ++ l)
    (hpre : ∀ p ∈ pre, Call.isPreflight p.1 = true)
    (hl : ∀ p ∈ l, Call.isPreflight p.1 = true) :
    ∀ c ∈ callsSince w0 w, Call.isPreflight c = true := by
  intro c hc
  simp only [callsSince, ht, List.append_assoc, List.drop_left, List.mem_map] at hc
  obtain ⟨p, hp, rfl⟩ := hc
  rcases List.mem_append.1 hp with hp | hp
  · exact hpre p hp
  · exact hl p hp

theorem preflight_not_mutation (c : Call) (hp : Call.isPreflight c = true) :
    Call.isMutation c = false := by
  cases c with
  | getwd => rfl
  | chdir d => rfl
  | lookPath n => rfl
  | stat p => rfl
  | readFile p => rfl
  | writeFile p c0 m => simp [Call.isPreflight] at hp
  | chmod p m => simp [Call.isPreflight] at hp
  | run argv =>
    have hv : argv = ["docker", "compose", "version"] := by
      by_contra hne
      have : Call.isPreflight (Call.run argv) = false := by
        unfold Call.isPreflight
        split <;> simp_all
      rw [this] at hp
      exact Bool.false_ne_true hp
    subst hv
    rfl



theorem osChdir_run (dir : String) (w : World) :
    (∃ e, osChdir dir w = Run.ok none (w.record (Call.chdir dir) e) ∧ e.files = w.ext.files ∧
      e.networks = w.ext.networks ∧ e.onPath = w.ext.onPath ∧
      e.composePlugin = w.ext.composePlugin ∧ e.cwdLost = w.ext.cwdLost) ∨
    (∃ msg, osChdir dir w = Run.ok (some msg) (w.record (Call.chdir dir) w.ext)) := by
  simp only [osChdir]
  cases hf : w.ext.files dir with
  | none => exact Or.inr ⟨_, rfl⟩
  | some n =>
    cases n with
    | file c m => exact Or.inr ⟨_, rfl⟩
    | dir => exact Or.inl ⟨_, rfl, rfl, rfl, rfl, rfl, rfl⟩

/-- What the steps of `main` before `provision` leave untouched. -/
theorem enterTraefikDir_run (rootDir : String) (w : World) :
    ∃ w1 l, enterTraefikDir rootDir w = Run.ok () w1 ∧ w1.ext.files = w.ext.files ∧
      w1.ext.networks = w.ext.networks ∧ w1.ext.onPath = w.ext.onPath ∧
      w1.ext.composePlugin = w.ext.composePlugin ∧ w1.trace = w.trace ++ l ∧
      ∀ p ∈ l, Call.isPreflight p.1 = true := by
  simp only [enterTraefikDir]
  split
  · rcases osChdir_run (rootDir ++ "/" ++ "Traefik") w with ⟨e, h, h1, h2, h3, h4, -⟩ | ⟨msg, h⟩
    · simp only [bind_run, h, osGetwd, pure_run]
      refine ⟨_, [(Call.chdir (rootDir ++ "/" ++ "Traefik"), e), (Call.getwd, e)], rfl,
        h1, h2, h3, h4, ?_, ?_⟩
      · simp [World.record]
      · intro p hp
        simp only [List.mem_cons, List.mem_singleton, List.not_mem_nil, or_false] at hp
        rcases hp with rfl | rfl <;> rfl
    · simp only [bind_run, h, pure_run]
      refine ⟨_, [(Call.chdir (rootDir ++ "/" ++ "Traefik"), w.ext)], rfl,
        rfl, rfl, rfl, rfl, ?_, ?_⟩
      · simp [World.record]
      · intro p hp
        rw [List.mem_singleton.1 hp]
        rfl
  · exact ⟨w, [], rfl, rfl, rfl, rfl, rfl, by simp, by simp⟩

/-- C6: when the docker executable is not found, or neither the compose plugin nor
`docker-compose` is there, `main` ends with exit code 1, every call it made is one of the
preliminary ones (working directory, executable lookup, `docker compose version`), so no
network is inspected or created, no file is read, written or chmod-ed and no stack is brought
up; files and networks are as they were. -/
theorem main_missing_tooling (w : World)
    (h : w.ext.onPath "docker" = false ∨
      (w.ext.composePlugin = false ∧ w.ext.onPath "docker-compose" = false)) :
    (main w).exitCode = some 1 ∧
    (∀ c ∈ callsSince w (main w).world, Call.isPreflight c = true) ∧
    (∀ c ∈ callsSince w (main w).world, Call.isMutation c = false) ∧
    (main w).world.ext.files = w.ext.files ∧
    (main w).world.ext.networks = w.ext.networks := by
  have key : (main w).exitCode = some 1 ∧
      (∀ c ∈ callsSince w (main w).world, Call.isPreflight c = true) ∧
      (main w).world.ext.files = w.ext.files ∧
      (main w).world.ext.networks = w.ext.networks := by
    simp only [main, bind_run, osGetwd]
    by_cases hl : w.ext.cwdLost = true
    · simp only [hl, if_true, exitErr]
      refine ⟨rfl, ?_, rfl, rfl⟩
      intro c hc
      simp only [Run.world, callsSince, World.record, List.drop_left, List.map_cons,
        List.map_nil, List.mem_singleton] at hc
      rw [hc]; rfl
    · simp only [hl, Bool.false_eq_true, if_false]
      obtain ⟨w1, l1, hrun, hf, hn, ho, hc, ht, hp⟩ :=
        enterTraefikDir_run w.ext.cwd (w.record Call.getwd w.ext)
      simp only [bind_run, hrun]
      have h' : w1.ext.onPath "docker" = false ∨
          (w1.ext.composePlugin = false ∧ w1.ext.onPath "docker-compose" = false) := by
        rw [ho, hc]; exact h
      obtain ⟨l, h1, h2, h3, h4⟩ := provision_missing w1 h'
      refine ⟨h1, ?_, ?_, ?_⟩
      · refine callsSince_append w _ ((Call.getwd, w.ext) :: l1) l ?_ ?_ h4
        · rw [h3, ht]; simp [World.record]
        · intro p hp2
          rcases List.mem_cons.1 hp2 with rfl | hp2
          · rfl
          · exact hp p hp2
      · rw [h2, hf]; rfl
      · rw [h2, hn]; rfl
  exact ⟨key.1, key.2.1, fun c hc => preflight_not_mutation c (key.2.1 c hc), key.2.2.1,
    key.2.2.2⟩

/-- C6 at a concrete state: a Linux host on which nothing is installed. -/
theorem main_missing_tooling_witness :
    (main (start (emptyExt "linux"))).exitCode = some 1 ∧
    (∀ c ∈ callsSince (start (emptyExt "linux")) (main (start (emptyExt "linux"))).world,
      Call.isPreflight c = true) ∧
    (∀ c ∈ callsSince (start (emptyExt "linux")) (main (start (emptyExt "linux"))).world,
      Call.isMutation c = false) ∧
    (main (start (emptyExt "linux"))).world.ext.files = (start (emptyExt "linux")).ext.files ∧
    (main (start (emptyExt "linux"))).world.ext.networks =
      (start (emptyExt "linux")).ext.networks :=
  main_missing_tooling (start (emptyExt "linux")) (Or.inl rfl)


/-- C9: `getenvDefault` returns the fallback when the variable is unset or holds white space
only (the empty value included); otherwise it returns the value of the variable without its
leading and trailing white space, which is not empty: the value is a white-space prefix, the
result and a white-space suffix, and the result neither starts nor ends with white space. -/
theorem getenvDefault_spec (env : Environ) (key fallback : String) :
    (blank env key → getenvDefault env key fallback = fallback) ∧
    (¬ blank env key →
      getenvDefault env key fallback = TrimSpace (Getenv env key) ∧
      getenvDefault env key fallback ≠ "" ∧
      ∃ pre post : List Char,
        (Getenv env key).data = pre ++ (getenvDefault env key fallback).data ++ post ∧
        (∀ c ∈ pre, isSpace c = true) ∧ (∀ c ∈ post, isSpace c = true) ∧
        (∀ c, (getenvDefault env key fallback).data.head? = some c → isSpace c = false) ∧
        (∀ c, (getenvDefault env key fallback).data.getLast? = some c → isSpace c = false)) := by
  have hb : blank env key ↔ trimSpaceL (Getenv env key).data = [] := by
    rw [trimSpaceL_eq_nil_iff]
    unfold blank Getenv
    cases env key <;> simp
  have hval : ∀ s : String, (s == "") = true ↔ s.data = [] := by
    intro s
    rw [beq_iff_eq]
    constructor
    · rintro rfl; rfl
    · intro h; cases s; simp_all
  constructor
  · intro h
    have : (TrimSpace (Getenv env key) == "") = true := (hval _).2 (hb.1 h)
    simp [getenvDefault, this]
  · intro h
    have hne : ¬ (TrimSpace (Getenv env key) == "") = true := fun h2 => h (hb.2 ((hval _).1 h2))
    have hres : getenvDefault env key fallback = TrimSpace (Getenv env key) := by
      simp only [getenvDefault]
      rw [if_neg hne]
    refine ⟨hres, ?_, ?_⟩
    · rw [hres]
      intro h2
      exact hne (by rw [h2]; rfl)
    · rw [hres]
      exact trimSpaceL_split _


/-- C9 at concrete environments: the variable unset, and the variable set to a padded
value. -/
theorem getenvDefault_spec_witness :
    getenvDefault (fun _ => none) "TRAEFIK_NETWORK" "traefik-network" = "traefik-network" ∧
    getenvDefault (fun _ => some "  edge \n") "TRAEFIK_NETWORK" "traefik-network" =
      TrimSpace "  edge \n" :=
  ⟨(getenvDefault_spec (fun _ => none) "TRAEFIK_NETWORK" "traefik-network").1 trivial,
    ((getenvDefault_spec (fun _ => some "  edge \n") "TRAEFIK_NETWORK" "traefik-network").2
      (fun hb => absurd (hb 'e' (by decide)) (by decide))).1⟩

end Traefik

namespace Kong

@[simp] theorem kbind_run {α β : Type} (x : K α) (f : α → K β) (s : State) :
    (x >>= f) s = match x s with
      | Run.ok a s1 => f a s1
      | Run.fatal s1 => Run.fatal s1
      | Run.panic m s1 => Run.panic m s1 := rfl

@[simp] theorem kpure_run {α : Type} (a : α) (s : State) : (pure a : K α) s = Run.ok a s := rfl

/-- A 409 whose body decodes to an object without a string `id` makes the common tail of the
create functions panic; a 409 whose body does not decode makes it return the decoding error. -/
theorem createResult_conflict (failure : String) (resp : Response) (s : State)
    (hstatus : resp.statusCode = StatusConflict) :
    (∀ fields, decodeMap resp = Except.ok fields →
      (∀ id, fields.lookup "id" ≠ some (JValue.str id)) →
      createResult failure (Except.ok resp) s =
        Run.panic "interface conversion: interface is not string" s) ∧
    (∀ err, decodeMap resp = Except.error err →
      createResult failure (Except.ok resp) s = Run.ok (Except.error err) s) := by
  have hcond : (resp.statusCode != StatusCreated && resp.statusCode != StatusConflict) = false := by
    rw [hstatus]; decide
  constructor
  · intro fields hdec hid
    simp only [createResult, hcond, Bool.false_eq_true, if_false, hdec, kbind_run, assertString]
    cases hl : fields.lookup "id" with
    | none => rfl
    | some v =>
      cases v with
      | str id => exact absurd hl (hid id)
      | null => rfl
      | bool b => rfl
      | number n => rfl
      | array a => rfl
      | object o => rfl
  · intro err hdec
    simp only [createResult, hcond, Bool.false_eq_true, if_false, hdec]
    rfl

/-- C1 on the code: when the gateway answers the POST of a create function with status 409
and a body that decodes to an object without a string `id` (what Kong sends), `createService`,
`createRoute` and `addPlugin` abort with a panic instead of reporting success; when the body
of the 409 does not decode they return the decoding error. No identifier marker exists. -/
theorem create_conflict_aborts (s : State) (resp : Response) (service : Service)
    (serviceName : String) (route : Route) (plugin : Plugin)
    (hstatus : resp.statusCode = StatusConflict) :
    (s.answer s.sent.length (servicePost service) = Except.ok resp →
      (∀ fields, decodeMap resp = Except.ok fields →
        (∀ id, fields.lookup "id" ≠ some (JValue.str id)) →
        (createService service s).panicked = true) ∧
      (∀ err, decodeMap resp = Except.error err →
        ∃ s1, createService service s = Run.ok (Except.error err) s1)) ∧
    (s.answer s.sent.length (routePost serviceName route) = Except.ok resp →
      (∀ fields, decodeMap resp = Except.ok fields →
        (∀ id, fields.lookup "id" ≠ some (JValue.str id)) →
        (createRoute serviceName route s).panicked = true) ∧
      (∀ err, decodeMap resp = Except.error err →
        ∃ s1, createRoute serviceName route s = Run.ok (Except.error err) s1)) ∧
    (s.answer s.sent.length (pluginPost serviceName plugin) = Except.ok resp →
      (∀ fields, decodeMap resp = Except.ok fields →
        (∀ id, fields.lookup "id" ≠ some (JValue.str id)) →
        (addPlugin serviceName plugin s).panicked = true) ∧
      (∀ err, decodeMap resp = Except.error err →
        ∃ s1, addPlugin serviceName plugin s = Run.ok (Except.error err) s1)) := by
  refine ⟨?_, ?_, ?_⟩
  · intro hans
    constructor
    · intro fields hdec hid
      simp only [createService, kbind_run, httpPost, send]
      rw [show s.answer s.sent.length (Request.post (kongAdminURL ++ "/services")
        "application/json" (Payload.service service)) = Except.ok resp from hans]
      simp only [(createResult_conflict _ resp _ hstatus).1 fields hdec hid]
      rfl
    · intro err hdec
      simp only [createService, kbind_run, httpPost, send]
      rw [show s.answer s.sent.length (Request.post (kongAdminURL ++ "/services")
        "application/json" (Payload.service service)) = Except.ok resp from hans]
      simp only [(createResult_conflict _ resp _ hstatus).2 err hdec]
      exact ⟨_, rfl⟩
  · intro hans
    constructor
    · intro fields hdec hid
      simp only [createRoute, kbind_run, httpPost, send]
      rw [show s.answer s.sent.length (Request.post
        (kongAdminURL ++ "/services/" ++ serviceName ++ "/routes")
        "application/json" (Payload.route route)) = Except.ok resp from hans]
      simp only [(createResult_conflict _ resp _ hstatus).1 fields hdec hid]
      rfl
    · intro err hdec
      simp only [createRoute, kbind_run, httpPost, send]
      rw [show s.answer s.sent.length (Request.post
        (kongAdminURL ++ "/services/" ++ serviceName ++ "/routes")
        "application/json" (Payload.route route)) = Except.ok resp from hans]
      simp only [(createResult_conflict _ resp _ hstatus).2 err hdec]
      exact ⟨_, rfl⟩
  · intro hans
    constructor
    · intro fields hdec hid
      simp only [addPlugin, kbind_run, httpPost, send]
      rw [show s.answer s.sent.length (Request.post
        (kongAdminURL ++ "/services/" ++ serviceName ++ "/plugins")
        "application/json" (Payload.plugin plugin)) = Except.ok resp from hans]
      simp only [(createResult_conflict _ resp _ hstatus).1 fields hdec hid]
      rfl
    · intro err hdec
      simp only [addPlugin, kbind_run, httpPost, send]
      rw [show s.answer s.sent.length (Request.post
        (kongAdminURL ++ "/services/" ++ serviceName ++ "/plugins")
        "application/json" (Payload.plugin plugin)) = Except.ok resp from hans]
      simp only [(createResult_conflict _ resp _ hstatus).2 err hdec]
      exact ⟨_, rfl⟩

/-- C1 on the code, at a concrete answer: the conflict body Kong sends makes `createService`
panic. -/
theorem create_conflict_aborts_witness :
    (createService exampleService (boot (fun _ _ => Except.ok conflictResponse))).panicked
      = true :=
  ((create_conflict_aborts (boot (fun _ _ => Except.ok conflictResponse)) conflictResponse
    exampleService "example-service" exampleRoute examplePlugin rfl).1 rfl).1
    [("code", JValue.number "5"), ("name", JValue.str "unique constraint violation")] rfl
    (fun _ h => Option.noConfusion h)

set_option maxRecDepth 100000 in
/-- C5 on the code: after a successful status check, an outcome of the create-service call
halts the pipeline. On a gateway where the service exists (status 409, a body without `id`)
`main` aborts with a panic right after the POST to `/services`: no route is created and
nothing after it runs. On a gateway whose answer to the listing has no `data` array `main`
aborts in `listServices`, before the rate-limit probes. -/
theorem main_halts_after_status_check :
    ((main (boot conflictGateway)).panicked = true ∧
      sentUrls (main (boot conflictGateway)).state =
        [("GET", "http://localhost:8001/status"), ("POST", "http://localhost:8001/services")]) ∧
    ((main (boot brokenListGateway)).panicked = true ∧
      sentUrls (main (boot brokenListGateway)).state =
        [("GET", "http://localhost:8001/status"), ("POST", "http://localhost:8001/services"),
          ("POST", "http://localhost:8001/services/example-service/routes"),
          ("GET", "http://localhost:8000/httpbin/get"),
          ("POST", "http://localhost:8001/services/example-service/plugins"),
          ("GET", "http://localhost:8001/services")]) := by
  refine ⟨⟨?_, ?_⟩, ⟨?_, ?_⟩⟩
  · rfl
  · decide
  · rfl
  · decide

end Kong

